import Mathlib

/-
Verification of the Log4MCP example client (src/example_client.py), a minimal
JSON-RPC 2.0 client speaking newline-delimited JSON over a TCP stream.

The embedding models:
  - JSON values (`Json`) as the client serializes them.  Numbers are
    modelled as exact integers: the client itself only ever serializes
    strings and null, so the serialized fragment needs no floats.
  - Python's `json.dumps` with its default settings (`dumps`): separators
    `", "` and `": "`, insertion-ordered keys, and `ensure_ascii=True`
    escaping (two-character shorthands, `\uXXXX`, and surrogate pairs for
    astral characters, all with lowercase hex digits).
  - Python's `json.loads` twice over.  `loads` covers the `Json`-valued
    fragment that `dumps` emits — whitespace skipping, strict strings (raw
    control characters rejected), `\uXXXX` escapes with surrogate-pair
    recombination, and a trailing-garbage check — and carries the codec
    round trip (`loads_dumpsChars`).  `pyLoads` is the full default parser
    the client's receive path uses: it also accepts float literals,
    `NaN`/`Infinity`/`-Infinity`, and lone-surrogate `\uXXXX` escapes, and
    builds Python values (`PyVal`) whose strings are code-point lists and
    whose objects are dicts (first-occurrence key order, last value wins).
  - The client itself never looks inside a parsed response, so parsed
    floats are carried by the literal Python would hand to `float`; their
    IEEE values are outside the model.
  - The client itself (`Log4MCPClient`, `send_request`, `close`, and the
    facade operations), with the network's behaviour for one exchange
    supplied explicitly (`Exchange`): how many bytes the OS-level
    `socket.send` accepts, and what `socket.recv(4096).decode()` produces.
    The wire is modelled at the level of decoded text (`List Char`); this is
    faithful because `dumps` output is pure ASCII, on which UTF-8 encoding
    is the identity.  Received bytes that are not valid UTF-8 raise at
    `.decode()` before any JSON parsing; the model exposes that case as
    `RecvBehavior.undecodable`.
  - The Python code raises plain `Exception`/`OSError` values; the design
    document classifies them by kind, and `RpcError` names those kinds:
    `Exception("Not connected to server")` is `notConnected`,
    `Exception("Server closed connection")` is `connectionClosed`, JSON and
    UTF-8 decode failures are `protocolError`, and OS-level socket failures
    are `transportError`.
-/

namespace Log4MCP

/-- A JSON value: null, booleans, (integer) numbers, strings, arrays, and
objects as ordered association lists. -/
inductive Json where
  | null
  | bool (b : Bool)
  | num (n : Int)
  | str (s : String)
  | arr (xs : List Json)
  | obj (kvs : List (String × Json))

mutual

/-- Boolean equality on `Json`, by mutual recursion through the nested lists. -/
def Json.beq : Json → Json → Bool
  | .null, .null => true
  | .bool a, .bool b => a == b
  | .num a, .num b => a == b
  | .str a, .str b => a == b
  | .arr a, .arr b => Json.beqArr a b
  | .obj a, .obj b => Json.beqObj a b
  | _, _ => false

/-- Elementwise `Json.beq` on array elements. -/
def Json.beqArr : List Json → List Json → Bool
  | [], [] => true
  | x :: xs, y :: ys => Json.beq x y && Json.beqArr xs ys
  | _, _ => false

/-- Elementwise `Json.beq` on object members. -/
def Json.beqObj : List (String × Json) → List (String × Json) → Bool
  | [], [] => true
  | (k, v) :: xs, (l, w) :: ys => k == l && Json.beq v w && Json.beqObj xs ys
  | _, _ => false

end

mutual

/-- `Json.beq` decides equality. -/
theorem Json.beq_iff : ∀ a b : Json, Json.beq a b = true ↔ a = b
  | .arr a, .arr b => by simp [Json.beq, Json.beqArr_iff a b]
  | .obj a, .obj b => by simp [Json.beq, Json.beqObj_iff a b]
  | .arr _, .null => by simp [Json.beq]
  | .arr _, .bool _ => by simp [Json.beq]
  | .arr _, .num _ => by simp [Json.beq]
  | .arr _, .str _ => by simp [Json.beq]
  | .arr _, .obj _ => by simp [Json.beq]
  | .obj _, .null => by simp [Json.beq]
  | .obj _, .bool _ => by simp [Json.beq]
  | .obj _, .num _ => by simp [Json.beq]
  | .obj _, .str _ => by simp [Json.beq]
  | .obj _, .arr _ => by simp [Json.beq]
  | .null, b => by cases b <;> simp [Json.beq]
  | .bool _, b => by cases b <;> simp [Json.beq]
  | .num _, b => by cases b <;> simp [Json.beq]
  | .str _, b => by cases b <;> simp [Json.beq]

/-- `Json.beqArr` decides equality of element lists. -/
theorem Json.beqArr_iff : ∀ a b : List Json, Json.beqArr a b = true ↔ a = b
  | [], [] => by simp [Json.beqArr]
  | x :: xs, y :: ys => by simp [Json.beqArr, Json.beq_iff x y, Json.beqArr_iff xs ys]
  | [], _ :: _ => by simp [Json.beqArr]
  | _ :: _, [] => by simp [Json.beqArr]

/-- `Json.beqObj` decides equality of member lists. -/
theorem Json.beqObj_iff : ∀ a b : List (String × Json), Json.beqObj a b = true ↔ a = b
  | [], [] => by simp [Json.beqObj]
  | (k, v) :: xs, (l, w) :: ys => by
      simp [Json.beqObj, Json.beq_iff v w, Json.beqObj_iff xs ys]
  | [], _ :: _ => by simp [Json.beqObj]
  | _ :: _, [] => by simp [Json.beqObj]

end

instance : DecidableEq Json := fun a b => decidable_of_iff _ (Json.beq_iff a b)

/-- Lowercase hexadecimal digit for a value below 16, as used by Python's
`'\u{0:04x}'.format(...)` escapes. -/
def hexLower (d : Nat) : Char :=
  if d < 10 then Char.ofNat (48 + d) else Char.ofNat (87 + d)

/-- Python's `json.dumps(..., ensure_ascii=True)` escaping of one character:
quote and backslash get two-character escapes, the five control characters
with shorthands use them, other ASCII printables pass through, and everything
else becomes `\uXXXX` (one escape for the basic plane, a surrogate pair for
astral characters). -/
def pyEsc (c : Char) : List Char :=
  if c = '\x22' then ['\x5c', '\x22']
  else if c = '\x5c' then ['\x5c', '\x5c']
  else if c = '\x08' then ['\x5c', 'b']
  else if c = '\x09' then ['\x5c', 't']
  else if c = '\x0a' then ['\x5c', 'n']
  else if c = '\x0c' then ['\x5c', 'f']
  else if c = '\x0d' then ['\x5c', 'r']
  else if 0x20 ≤ c.toNat ∧ c.toNat ≤ 0x7e then [c]
  else if c.toNat < 0x10000 then
    ['\x5c', 'u', hexLower (c.toNat / 4096 % 16), hexLower (c.toNat / 256 % 16),
     hexLower (c.toNat / 16 % 16), hexLower (c.toNat % 16)]
  else
    let t := c.toNat - 0x10000
    let hi := 0xd800 + t / 0x400
    let lo := 0xdc00 + t % 0x400
    ['\x5c', 'u', hexLower (hi / 4096 % 16), hexLower (hi / 256 % 16),
     hexLower (hi / 16 % 16), hexLower (hi % 16),
     '\x5c', 'u', hexLower (lo / 4096 % 16), hexLower (lo / 256 % 16),
     hexLower (lo / 16 % 16), hexLower (lo % 16)]

/-- Escape a whole character run. -/
def pyEscRun : List Char → List Char
  | [] => []
  | c :: cs => pyEsc c ++ pyEscRun cs

/-- The character for a decimal digit value. -/
def digitChar (d : Nat) : Char := Char.ofNat (48 + d)

/-- Decimal digits of a positive number, most significant first, accumulated
onto `acc`. -/
def natCharsAux : Nat → List Char → List Char
  | 0, acc => acc
  | n + 1, acc => natCharsAux ((n + 1) / 10) (digitChar ((n + 1) % 10) :: acc)
decreasing_by exact Nat.div_lt_self (Nat.succ_pos n) (by omega)

/-- Canonical decimal rendering of a natural number (no leading zeros), the
form Python's `str` gives an `int`. -/
def natChars (n : Nat) : List Char := if n = 0 then ['0'] else natCharsAux n []

/-- Canonical decimal rendering of an integer. -/
def intChars : Int → List Char
  | .ofNat n => natChars n
  | .negSucc n => '-' :: natChars (n + 1)

mutual

/-- Python's `json.dumps` with default arguments, as a character list: item
separator `", "`, key separator `": "`, keys in insertion order. -/
def dumpsChars : Json → List Char
  | .num n => intChars n
  | .str s => '\x22' :: pyEscRun s.data ++ ['\x22']
  | .bool false => 'f' :: 'a' :: 'l' :: 's' :: 'e' :: []
  | .bool true => 't' :: 'r' :: 'u' :: 'e' :: []
  | .null => 'n' :: 'u' :: 'l' :: 'l' :: []
  | .arr xs => '[' :: dumpsItems xs ++ [']']
  | .obj kvs => '\x7b' :: dumpsPairs kvs ++ ['\x7d']

/-- Array elements joined by `", "`. -/
def dumpsItems : List Json → List Char
  | [] => []
  | [x] => dumpsChars x
  | x :: y :: xs => dumpsChars x ++ ',' :: ' ' :: dumpsItems (y :: xs)

/-- Object members rendered as `"key": value`, joined by `", "`. -/
def dumpsPairs : List (String × Json) → List Char
  | [] => []
  | [(k, v)] => '\x22' :: pyEscRun k.data ++ '\x22' :: ':' :: ' ' :: dumpsChars v
  | (k, v) :: m :: kvs =>
      '\x22' :: pyEscRun k.data ++ '\x22' :: ':' :: ' ' :: dumpsChars v
        ++ ',' :: ' ' :: dumpsPairs (m :: kvs)

end

/-- Python's `json.dumps` with default arguments. -/
def dumps (j : Json) : String := String.mk (dumpsChars j)

/-- JSON whitespace, as in Python's `json` module (space, tab, LF, CR). -/
def skipWs : List Char → List Char
  | [] => []
  | c :: cs =>
      if c = ' ' ∨ c = '\x09' ∨ c = '\x0a' ∨ c = '\x0d' then skipWs cs else c :: cs

/-- Value of one hexadecimal digit, either case (as accepted by the `\uXXXX`
escape handling of `json.loads`). -/
def unhexDigit (c : Char) : Option Nat :=
  if '0' ≤ c ∧ c ≤ '9' then some (c.toNat - 48)
  else if 'a' ≤ c ∧ c ≤ 'f' then some (c.toNat - 87)
  else if 'A' ≤ c ∧ c ≤ 'F' then some (c.toNat - 55)
  else none

/-- Value of a four-digit hexadecimal run. -/
def unhexQuad (a b c d : Char) : Option Nat :=
  match unhexDigit a, unhexDigit b, unhexDigit c, unhexDigit d with
  | some x, some y, some z, some w => some (((x * 16 + y) * 16 + z) * 16 + w)
  | _, _, _, _ => none

/-- Prepend a decoded character to a string-scan result. -/
def consScan (c : Char) (r : Option (List Char × List Char)) :
    Option (List Char × List Char) :=
  r.map (fun p => (c :: p.1, p.2))

/-- Scan of a JSON string body after the opening quote, as in `json.loads`
with `strict=True`: a raw control character is an error, escapes are decoded,
and a `\uD800`-`\uDBFF` escape followed by a low-surrogate escape is combined
into one astral character.  Python would keep an uncombined lone surrogate in
the result string; such a string is not a sequence of Unicode scalar values,
so this scanner — the codec half used for the `dumps` round trip, whose
inputs never hold one — rejects lone-surrogate escapes; the client's receive
path uses the full `pyStrScan` below, which keeps them as code points.  The
fuel argument only bounds the recursion; every step consumes at least one
character, so any fuel above the input length is ample (`loads` always
supplies that much, making the out-of-fuel case unreachable). -/
def strScan : Nat → List Char → Option (List Char × List Char)
  | 0, _ => Option.none
  | fuel + 1, l =>
    match l with
    | [] => Option.none
    | c :: rest =>
      if c = '\x22' then some ([], rest)
      else if c = '\x5c' then
        match rest with
        | [] => Option.none
        | e :: rest1 =>
          if e = 'u' then
            match rest1 with
            | h1 :: h2 :: h3 :: h4 :: rest2 =>
              match unhexQuad h1 h2 h3 h4 with
              | Option.none => Option.none
              | some n =>
                if 0xd800 ≤ n ∧ n < 0xdc00 then
                  match rest2 with
                  | x :: y :: g1 :: g2 :: g3 :: g4 :: rest3 =>
                    if x = '\x5c' ∧ y = 'u' then
                      match unhexQuad g1 g2 g3 g4 with
                      | Option.none => Option.none
                      | some m =>
                        if 0xdc00 ≤ m ∧ m < 0xe000 then
                          consScan (Char.ofNat (0x10000 + (n - 0xd800) * 0x400 + (m - 0xdc00)))
                            (strScan fuel rest3)
                        else Option.none
                    else Option.none
                  | _ => Option.none
                else if 0xdc00 ≤ n ∧ n < 0xe000 then Option.none
                else consScan (Char.ofNat n) (strScan fuel rest2)
            | _ => Option.none
          else if e = '\x22' then consScan '\x22' (strScan fuel rest1)
          else if e = '\x5c' then consScan '\x5c' (strScan fuel rest1)
          else if e = '/' then consScan '/' (strScan fuel rest1)
          else if e = 'b' then consScan '\x08' (strScan fuel rest1)
          else if e = 'f' then consScan '\x0c' (strScan fuel rest1)
          else if e = 'n' then consScan '\x0a' (strScan fuel rest1)
          else if e = 'r' then consScan '\x0d' (strScan fuel rest1)
          else if e = 't' then consScan '\x09' (strScan fuel rest1)
          else Option.none
      else if c.toNat < 0x20 then Option.none
      else consScan c (strScan fuel rest)

/-- Numeric value of a run of decimal digits. -/
def digitsVal (ds : List Char) : Nat :=
  ds.foldl (fun a c => a * 10 + (c.toNat - 48)) 0

/-- Head of the remainder continues the literal as a float. -/
def floatNext : List Char → Bool
  | [] => false
  | c :: _ => c == '.' || c == 'e' || c == 'E'

/-- Scan of an unsigned JSON integer: `0` alone, or a nonzero digit followed
by more digits.  A fractional part or exponent would make a Python float,
which `dumps` never emits for the modelled values, so this codec-side scan
rejects it; the full number grammar lives in `pyNumScan` below. -/
def natScan : List Char → Option (Nat × List Char)
  | [] => none
  | c :: rest =>
    if c = '0' then
      if floatNext rest then none else some (0, rest)
    else if c.isDigit then
      let ds := c :: rest.takeWhile Char.isDigit
      let r := rest.dropWhile Char.isDigit
      if floatNext r then none else some (digitsVal ds, r)
    else none

/-- Scan of a JSON number (an integer, possibly negated).  Python would also
accept `Infinity`, `-Infinity` and `NaN` here; they are floats, which
`dumps` never emits for the modelled values — the full scanner `pyValScan`
below accepts them. -/
def numScan (l : List Char) : Option (Json × List Char) :=
  match l with
  | [] => Option.none
  | c :: rest =>
    if c = '-' then (natScan rest).map (fun p => (Json.num (-(p.1 : Int)), p.2))
    else (natScan (c :: rest)).map (fun p => (Json.num (p.1 : Int), p.2))

mutual

/-- Scan of one JSON value, positioned at its first character.  The fuel
argument bounds the nesting recursion; every recursive call consumes at least
one character first, so `length + 1` fuel always suffices (see `loads`). -/
def valScan : Nat → List Char → Option (Json × List Char)
  | 0, _ => none
  | fuel + 1, l =>
    match l with
    | [] => none
    | c :: rest =>
      if c = '\x7b' then
        match skipWs rest with
        | [] => none
        | d :: r1 =>
            if d = '\x7d' then some (Json.obj [], r1)
            else (pairsScan fuel (d :: r1)).map (fun p => (Json.obj p.1, p.2))
      else if c = '[' then
        match skipWs rest with
        | [] => none
        | d :: r1 =>
            if d = ']' then some (Json.arr [], r1)
            else (itemsScan fuel (d :: r1)).map (fun p => (Json.arr p.1, p.2))
      else if c = '\x22' then
        (strScan fuel rest).map (fun p => (Json.str (String.mk p.1), p.2))
      else if c = 'n' then
        match rest with
        | c1 :: c2 :: c3 :: r1 =>
            if c1 = 'u' ∧ c2 = 'l' ∧ c3 = 'l' then some (Json.null, r1) else Option.none
        | _ => Option.none
      else if c = 't' then
        match rest with
        | c1 :: c2 :: c3 :: r1 =>
            if c1 = 'r' ∧ c2 = 'u' ∧ c3 = 'e' then some (Json.bool true, r1) else Option.none
        | _ => Option.none
      else if c = 'f' then
        match rest with
        | c1 :: c2 :: c3 :: c4 :: r1 =>
            if c1 = 'a' ∧ c2 = 'l' ∧ c3 = 's' ∧ c4 = 'e' then some (Json.bool false, r1)
            else Option.none
        | _ => Option.none
      else if c = '-' ∨ c.isDigit then numScan (c :: rest)
      else Option.none

/-- Scan of object members, positioned at the opening quote of a key. -/
def pairsScan : Nat → List Char → Option (List (String × Json) × List Char)
  | 0, _ => none
  | fuel + 1, l =>
    match l with
    | [] => none
    | c :: rest =>
      if c = '\x22' then
        match strScan fuel rest with
        | Option.none => Option.none
        | some (k, r1) =>
          match skipWs r1 with
          | [] => none
          | d :: r2 =>
            if d = ':' then
              match valScan fuel (skipWs r2) with
              | none => none
              | some (v, r3) =>
                match skipWs r3 with
                | [] => none
                | e :: r4 =>
                  if e = ',' then
                    match pairsScan fuel (skipWs r4) with
                    | none => none
                    | some (kvs, r5) => some ((String.mk k, v) :: kvs, r5)
                  else if e = '\x7d' then some ([(String.mk k, v)], r4)
                  else none
            else none
      else none

/-- Scan of array elements, positioned at the first element. -/
def itemsScan : Nat → List Char → Option (List Json × List Char)
  | 0, _ => none
  | fuel + 1, l =>
    match valScan fuel l with
    | none => none
    | some (v, r1) =>
      match skipWs r1 with
      | [] => none
      | e :: r2 =>
        if e = ',' then
          match itemsScan fuel (skipWs r2) with
          | none => none
          | some (vs, r3) => some (v :: vs, r3)
        else if e = ']' then some ([v], r2)
        else none

end

/-- The `Json`-valued fragment of `json.loads`, covering every document that
`dumps` emits (the codec round trip of `loads_dumpsChars` relates the two):
skip leading whitespace, scan one value, skip trailing whitespace, and
reject leftover input.  The client's receive path parses with the
boundary-faithful `pyLoads` below instead. -/
def loads (l : List Char) : Option Json :=
  match valScan (l.length + 1) (skipWs l) with
  | none => none
  | some (j, rest) => if skipWs rest = [] then some j else none

/-- A Python value as `json.loads` produces one: strings are code-point
lists, because `\uXXXX` escapes can put lone surrogates — which are not
Unicode scalar values, hence not Lean `Char`s — into a Python `str`; a
parsed float is carried by the literal that produced it (Python applies
`float` to that literal, and no part of the client ever inspects the
resulting IEEE value, so the model keeps the literal); objects are Python
dicts, keys in first-occurrence order with the last value winning. -/
inductive PyVal where
  | null
  | bool (b : Bool)
  | int (n : Int)
  | float (lit : List Char)
  | str (cps : List Nat)
  | arr (xs : List PyVal)
  | obj (kvs : List (List Nat × PyVal))

mutual

/-- Boolean equality on `PyVal`, by mutual recursion through the nested
lists. -/
def PyVal.beq : PyVal → PyVal → Bool
  | .null, .null => true
  | .bool a, .bool b => a == b
  | .int a, .int b => a == b
  | .float a, .float b => a == b
  | .str a, .str b => a == b
  | .arr a, .arr b => PyVal.beqArr a b
  | .obj a, .obj b => PyVal.beqObj a b
  | _, _ => false

/-- Elementwise `PyVal.beq` on array elements. -/
def PyVal.beqArr : List PyVal → List PyVal → Bool
  | [], [] => true
  | x :: xs, y :: ys => PyVal.beq x y && PyVal.beqArr xs ys
  | _, _ => false

/-- Elementwise `PyVal.beq` on dict members. -/
def PyVal.beqObj : List (List Nat × PyVal) → List (List Nat × PyVal) → Bool
  | [], [] => true
  | (k, v) :: xs, (l, w) :: ys => k == l && PyVal.beq v w && PyVal.beqObj xs ys
  | _, _ => false

end

mutual

/-- `PyVal.beq` decides equality. -/
theorem PyVal.beq_spec : ∀ a b : PyVal, PyVal.beq a b = true ↔ a = b
  | .arr a, .arr b => by simp [PyVal.beq, PyVal.beqArr_spec a b]
  | .obj a, .obj b => by simp [PyVal.beq, PyVal.beqObj_spec a b]
  | .arr _, .null => by simp [PyVal.beq]
  | .arr _, .bool _ => by simp [PyVal.beq]
  | .arr _, .int _ => by simp [PyVal.beq]
  | .arr _, .float _ => by simp [PyVal.beq]
  | .arr _, .str _ => by simp [PyVal.beq]
  | .arr _, .obj _ => by simp [PyVal.beq]
  | .obj _, .null => by simp [PyVal.beq]
  | .obj _, .bool _ => by simp [PyVal.beq]
  | .obj _, .int _ => by simp [PyVal.beq]
  | .obj _, .float _ => by simp [PyVal.beq]
  | .obj _, .str _ => by simp [PyVal.beq]
  | .obj _, .arr _ => by simp [PyVal.beq]
  | .null, b => by cases b <;> simp [PyVal.beq]
  | .bool _, b => by cases b <;> simp [PyVal.beq]
  | .int _, b => by cases b <;> simp [PyVal.beq]
  | .float _, b => by cases b <;> simp [PyVal.beq]
  | .str _, b => by cases b <;> simp [PyVal.beq]

/-- `PyVal.beqArr` decides equality of element lists. -/
theorem PyVal.beqArr_spec : ∀ a b : List PyVal, PyVal.beqArr a b = true ↔ a = b
  | [], [] => by simp [PyVal.beqArr]
  | x :: xs, y :: ys => by simp [PyVal.beqArr, PyVal.beq_spec x y, PyVal.beqArr_spec xs ys]
  | [], _ :: _ => by simp [PyVal.beqArr]
  | _ :: _, [] => by simp [PyVal.beqArr]

/-- `PyVal.beqObj` decides equality of member lists. -/
theorem PyVal.beqObj_spec : ∀ a b : List (List Nat × PyVal),
    PyVal.beqObj a b = true ↔ a = b
  | [], [] => by simp [PyVal.beqObj]
  | (k, v) :: xs, (l, w) :: ys => by
      simp [PyVal.beqObj, PyVal.beq_spec v w, PyVal.beqObj_spec xs ys]
  | [], _ :: _ => by simp [PyVal.beqObj]
  | _ :: _, [] => by simp [PyVal.beqObj]

end

instance : DecidableEq PyVal := fun a b => decidable_of_iff _ (PyVal.beq_spec a b)

/-- One `d[k] = v` assignment on a Python dict in insertion order: an
existing key keeps its position and takes the new value; a new key is
appended. -/
def dictSet (kvs : List (List Nat × PyVal)) (k : List Nat) (v : PyVal) :
    List (List Nat × PyVal) :=
  match kvs with
  | [] => [(k, v)]
  | (k0, v0) :: rest =>
      if k0 = k then (k0, v) :: rest else (k0, v0) :: dictSet rest k v

/-- The dict built from member pairs in parse order — one `PyDict_SetItem`
per parsed member, as the scanner performs them. -/
def pyDict (pairs : List (List Nat × PyVal)) : List (List Nat × PyVal) :=
  pairs.foldl (fun d kv => dictSet d kv.1 kv.2) []

/-- Prepend a decoded code point to a Python-string scan result. -/
def pyConsScan (n : Nat) (r : Option (List Nat × List Char)) :
    Option (List Nat × List Char) :=
  r.map (fun p => (n :: p.1, p.2))

/-- Scan of a JSON string body after the opening quote, exactly as the
`json.loads` scanner with `strict=True` behaves: a raw control character is
an error; the two-character escapes decode; a `\uXXXX` escape needs four
hex digits; a high-surrogate escape whose following characters are a
low-surrogate escape combines with it into one astral code point, while any
other surrogate escape stays in the result as a lone surrogate code point
(Python strings admit them; the scanner rewinds after peeking at a `\uXXXX`
escape that is valid hex but no low surrogate, and errors when the peeked
escape is not valid hex).  The fuel argument only bounds the recursion;
every step consumes at least one character, so any fuel above the input
length is ample. -/
def pyStrScan : Nat → List Char → Option (List Nat × List Char)
  | 0, _ => Option.none
  | fuel + 1, l =>
    match l with
    | [] => Option.none
    | c :: rest =>
      if c = '\x22' then some ([], rest)
      else if c = '\x5c' then
        match rest with
        | [] => Option.none
        | e :: rest1 =>
          if e = 'u' then
            match rest1 with
            | h1 :: h2 :: h3 :: h4 :: rest2 =>
              match unhexQuad h1 h2 h3 h4 with
              | Option.none => Option.none
              | some n =>
                if 0xd800 ≤ n ∧ n < 0xdc00 then
                  match rest2 with
                  | x :: y :: g1 :: g2 :: g3 :: g4 :: rest3 =>
                    if x = '\x5c' ∧ y = 'u' then
                      match unhexQuad g1 g2 g3 g4 with
                      | Option.none => Option.none
                      | some m =>
                        if 0xdc00 ≤ m ∧ m < 0xe000 then
                          pyConsScan (0x10000 + (n - 0xd800) * 0x400 + (m - 0xdc00))
                            (pyStrScan fuel rest3)
                        else pyConsScan n (pyStrScan fuel rest2)
                    else pyConsScan n (pyStrScan fuel rest2)
                  | _ => pyConsScan n (pyStrScan fuel rest2)
                else pyConsScan n (pyStrScan fuel rest2)
            | _ => Option.none
          else if e = '\x22' then pyConsScan 0x22 (pyStrScan fuel rest1)
          else if e = '\x5c' then pyConsScan 0x5c (pyStrScan fuel rest1)
          else if e = '/' then pyConsScan 0x2f (pyStrScan fuel rest1)
          else if e = 'b' then pyConsScan 0x08 (pyStrScan fuel rest1)
          else if e = 'f' then pyConsScan 0x0c (pyStrScan fuel rest1)
          else if e = 'n' then pyConsScan 0x0a (pyStrScan fuel rest1)
          else if e = 'r' then pyConsScan 0x0d (pyStrScan fuel rest1)
          else if e = 't' then pyConsScan 0x09 (pyStrScan fuel rest1)
          else Option.none
      else if c.toNat < 0x20 then Option.none
      else pyConsScan c.toNat (pyStrScan fuel rest)

/-- Integer part of a number literal: `0` alone (the scanner never extends a
leading zero), or a nonzero digit followed by the maximal digit run. -/
def intPartScan (l : List Char) : Option (List Char × List Char) :=
  match l with
  | [] => Option.none
  | c :: rest =>
      if c = '0' then some (['0'], rest)
      else if c.isDigit then
        some (c :: rest.takeWhile Char.isDigit, rest.dropWhile Char.isDigit)
      else Option.none

/-- Fraction part of a number literal: consumed only when a `.` is directly
followed by a digit, then maximal; otherwise nothing is consumed. -/
def fracScan (l : List Char) : List Char × List Char :=
  match l with
  | c :: d :: rest =>
      if c = '.' ∧ d.isDigit then
        ('.' :: d :: rest.takeWhile Char.isDigit, rest.dropWhile Char.isDigit)
      else ([], l)
  | _ => ([], l)

/-- Exponent part of a number literal: consumed only when `e`/`E`, an
optional sign, and then at least one digit follow; otherwise the scanner
backtracks and the number ends before the `e`. -/
def expScan (l : List Char) : List Char × List Char :=
  match l with
  | [] => ([], l)
  | e :: rest =>
      if e = 'e' ∨ e = 'E' then
        match rest with
        | [] => ([], l)
        | s :: rest1 =>
            if s = '+' ∨ s = '-' then
              match rest1 with
              | [] => ([], l)
              | d :: _ =>
                  if d.isDigit then
                    (e :: s :: rest1.takeWhile Char.isDigit, rest1.dropWhile Char.isDigit)
                  else ([], l)
            else if s.isDigit then
              (e :: rest.takeWhile Char.isDigit, rest.dropWhile Char.isDigit)
            else ([], l)
      else ([], l)

/-- Scan of a JSON number, as the `json.loads` scanner matches one: an
optional minus, an integer part, then the fraction and exponent parts of
`fracScan` and `expScan`.  A literal with neither fraction nor exponent is a
Python int; any other is handed to `float`, whose literal the model
carries. -/
def pyNumScan (l : List Char) : Option (PyVal × List Char) :=
  let sgn : List Char := match l with
    | c :: _ => if c = '-' then ['-'] else []
    | [] => []
  let r0 : List Char := match l with
    | c :: rest => if c = '-' then rest else l
    | [] => l
  match intPartScan r0 with
  | Option.none => Option.none
  | some (ip, r1) =>
    let fr := fracScan r1
    let ex := expScan fr.2
    if fr.1 = [] ∧ ex.1 = [] then
      some (PyVal.int (if sgn = [] then (digitsVal ip : Int) else -(digitsVal ip : Int)), ex.2)
    else some (PyVal.float (sgn ++ ip ++ fr.1 ++ ex.1), ex.2)

mutual

/-- Scan of one value, positioned at its first character, with the full
default dispatch of the `json.loads` scanner: containers, strings, the
`null`/`true`/`false` literals, the `NaN`/`Infinity`/`-Infinity` constants
(Python floats, via the default `parse_constant`), and numbers.  Fuel
bounds the recursion as in `valScan`; `pyLoads` always supplies enough. -/
def pyValScan : Nat → List Char → Option (PyVal × List Char)
  | 0, _ => Option.none
  | fuel + 1, l =>
    match l with
    | [] => Option.none
    | c :: rest =>
      if c = '\x7b' then
        match skipWs rest with
        | [] => Option.none
        | d :: r1 =>
            if d = '\x7d' then some (PyVal.obj [], r1)
            else (pyPairsScan fuel (d :: r1)).map (fun p => (PyVal.obj (pyDict p.1), p.2))
      else if c = '[' then
        match skipWs rest with
        | [] => Option.none
        | d :: r1 =>
            if d = ']' then some (PyVal.arr [], r1)
            else (pyItemsScan fuel (d :: r1)).map (fun p => (PyVal.arr p.1, p.2))
      else if c = '\x22' then
        (pyStrScan fuel rest).map (fun p => (PyVal.str p.1, p.2))
      else if c = 'n' then
        match rest with
        | c1 :: c2 :: c3 :: r1 =>
            if c1 = 'u' ∧ c2 = 'l' ∧ c3 = 'l' then some (PyVal.null, r1) else Option.none
        | _ => Option.none
      else if c = 't' then
        match rest with
        | c1 :: c2 :: c3 :: r1 =>
            if c1 = 'r' ∧ c2 = 'u' ∧ c3 = 'e' then some (PyVal.bool true, r1)
            else Option.none
        | _ => Option.none
      else if c = 'f' then
        match rest with
        | c1 :: c2 :: c3 :: c4 :: r1 =>
            if c1 = 'a' ∧ c2 = 'l' ∧ c3 = 's' ∧ c4 = 'e' then some (PyVal.bool false, r1)
            else Option.none
        | _ => Option.none
      else if c = 'N' then
        match rest with
        | c1 :: c2 :: r1 =>
            if c1 = 'a' ∧ c2 = 'N' then some (PyVal.float ['N', 'a', 'N'], r1)
            else Option.none
        | _ => Option.none
      else if c = 'I' then
        match rest with
        | c1 :: c2 :: c3 :: c4 :: c5 :: c6 :: c7 :: r1 =>
            if c1 = 'n' ∧ c2 = 'f' ∧ c3 = 'i' ∧ c4 = 'n' ∧ c5 = 'i' ∧ c6 = 't' ∧ c7 = 'y'
            then some (PyVal.float ['I', 'n', 'f', 'i', 'n', 'i', 't', 'y'], r1)
            else Option.none
        | _ => Option.none
      else if c = '-' then
        match rest with
        | c1 :: c2 :: c3 :: c4 :: c5 :: c6 :: c7 :: c8 :: r1 =>
            if c1 = 'I' ∧ c2 = 'n' ∧ c3 = 'f' ∧ c4 = 'i' ∧ c5 = 'n' ∧ c6 = 'i' ∧ c7 = 't'
                ∧ c8 = 'y'
            then some (PyVal.float ['-', 'I', 'n', 'f', 'i', 'n', 'i', 't', 'y'], r1)
            else pyNumScan (c :: rest)
        | _ => pyNumScan (c :: rest)
      else if c.isDigit then pyNumScan (c :: rest)
      else Option.none

/-- Scan of object members, positioned at the opening quote of a key;
members are returned in parse order and folded into a dict by the caller. -/
def pyPairsScan : Nat → List Char → Option (List (List Nat × PyVal) × List Char)
  | 0, _ => Option.none
  | fuel + 1, l =>
    match l with
    | [] => Option.none
    | c :: rest =>
      if c = '\x22' then
        match pyStrScan fuel rest with
        | Option.none => Option.none
        | some (k, r1) =>
          match skipWs r1 with
          | [] => Option.none
          | d :: r2 =>
            if d = ':' then
              match pyValScan fuel (skipWs r2) with
              | Option.none => Option.none
              | some (v, r3) =>
                match skipWs r3 with
                | [] => Option.none
                | e :: r4 =>
                  if e = ',' then
                    match pyPairsScan fuel (skipWs r4) with
                    | Option.none => Option.none
                    | some (kvs, r5) => some ((k, v) :: kvs, r5)
                  else if e = '\x7d' then some ([(k, v)], r4)
                  else Option.none
            else Option.none
      else Option.none

/-- Scan of array elements, positioned at the first element. -/
def pyItemsScan : Nat → List Char → Option (List PyVal × List Char)
  | 0, _ => Option.none
  | fuel + 1, l =>
    match pyValScan fuel l with
    | Option.none => Option.none
    | some (v, r1) =>
      match skipWs r1 with
      | [] => Option.none
      | e :: r2 =>
        if e = ',' then
          match pyItemsScan fuel (skipWs r2) with
          | Option.none => Option.none
          | some (vs, r3) => some (v :: vs, r3)
        else if e = ']' then some ([v], r2)
        else Option.none

end

/-- Python's `json.loads` on decoded text, with the full default value set:
skip leading whitespace, scan one document, skip trailing whitespace, and
reject leftover input.  Each fuel decrement either first consumed a
character or is the element step of an array scan whose entry consumed one,
so `2 * length + 2` fuel can never run out.  Interpreter resource limits
(the `RecursionError` that kilobyte-deep nesting would hit) are outside the
model, like every other memory bound. -/
def pyLoads (l : List Char) : Option PyVal :=
  match pyValScan (2 * l.length + 2) (skipWs l) with
  | Option.none => Option.none
  | some (v, rest) => if skipWs rest = [] then some v else Option.none

/-- The spec's error kinds for the exceptions the client raises: the check
`if not self.socket` raises `Exception("Not connected to server")`
(`notConnected`); an empty read raises `Exception("Server closed connection")`
(`connectionClosed`); JSON or UTF-8 decode failures are `protocolError`; and
OS-level socket failures are `transportError`. -/
inductive RpcError where
  | notConnected
  | connectionClosed
  | protocolError
  | transportError
deriving DecidableEq

/-- The `self.socket` attribute: `none` models Python `None`; `conn isOpen`
models a stored socket object, which stays stored after `close()` (the code
never resets the attribute), with `isOpen = false` once the OS handle has
been closed. -/
inductive SocketAttr where
  | none
  | conn (isOpen : Bool)
deriving DecidableEq

/-- The client's instance state, as set up by `__init__`. -/
structure Log4MCPClient where
  host : String
  port : Nat
  verbose : Bool
  socket : SocketAttr
  request_id : Nat
deriving DecidableEq

/-- The state of a freshly constructed client: `__init__` stores the
arguments, sets `request_id = 0`, and `_connect` stores an open socket
(construction fails with a connection error otherwise, and no client value
exists). -/
def initClient (host : String) (port : Nat) (verbose : Bool) : Log4MCPClient :=
  { host := host, port := port, verbose := verbose, socket := .conn true, request_id := 0 }

/-- How the OS treats the single `socket.send` of one exchange: raise, or
accept `n` bytes (at most the message length), or accept everything.
`socket.send` returns the accepted count, which the client ignores. -/
inductive SendBehavior where
  | err
  | accept (n : Nat)
  | acceptAll
deriving DecidableEq

/-- What the single `socket.recv(4096).decode()` of one exchange produces:
an OS-level read failure, bytes that are not valid UTF-8 (raising at
`.decode()`), or decoded text (`[]` models the empty read of a peer close). -/
inductive RecvBehavior where
  | err
  | undecodable
  | data (s : List Char)
deriving DecidableEq

/-- The network's behaviour for one request/response exchange. -/
structure Exchange where
  send : SendBehavior
  recv : RecvBehavior
deriving DecidableEq

/-- Network activity of one call: a `sent` event records the full text handed
to `socket.send` together with the byte count the OS accepted (the bytes
actually written are `data.take accepted`); `received` records decoded text;
`receivedBad` records a read whose bytes failed to decode. -/
inductive IOEvent where
  | sent (data : List Char) (accepted : Nat)
  | received (data : List Char)
  | receivedBad
deriving DecidableEq

/-- The request envelope built by `_send_request`: an id (the decimal string
of the incremented counter), the method, and the params mapping. -/
structure RequestEnvelope where
  id : String
  method : String
  params : List (String × Json)
deriving DecidableEq

/-- The JSON object serialized for a request, with the source's key order:
`jsonrpc`, `id`, `method`, `params`. -/
def requestJson (r : RequestEnvelope) : Json :=
  Json.obj [("jsonrpc", Json.str "2.0"), ("id", Json.str r.id),
            ("method", Json.str r.method), ("params", Json.obj r.params)]

instance : DecidableEq (Except RpcError Json) := fun a b =>
  match a, b with
  | .ok x, .ok y => decidable_of_iff (x = y) (by simp)
  | .error x, .error y => decidable_of_iff (x = y) (by simp)
  | .ok _, .error _ => isFalse (by simp)
  | .error _, .ok _ => isFalse (by simp)

instance : DecidableEq (Except RpcError PyVal) := fun a b =>
  match a, b with
  | .ok x, .ok y => decidable_of_iff (x = y) (by simp)
  | .error x, .error y => decidable_of_iff (x = y) (by simp)
  | .ok _, .error _ => isFalse (by simp)
  | .error _, .ok _ => isFalse (by simp)

/-- Everything one call produces: the returned response or raised error, the
envelope built (none when the connection check failed first), the network
trace, and the client state afterwards. -/
structure CallResult where
  outcome : Except RpcError PyVal
  built : Option RequestEnvelope
  trace : List IOEvent
  final : Log4MCPClient
deriving DecidableEq

/-- The receive half of `_send_request`: one blocking `recv`, the emptiness
check, and `json.loads` (the boundary-faithful `pyLoads`); the response is
returned without any inspection of its structure. -/
def recvStep (st : Log4MCPClient) (env : RequestEnvelope) (tr : List IOEvent)
    (rb : RecvBehavior) : CallResult :=
  match rb with
  | .err => ⟨.error .transportError, some env, tr, st⟩
  | .undecodable => ⟨.error .protocolError, some env, tr ++ [.receivedBad], st⟩
  | .data s =>
    if s = [] then ⟨.error .connectionClosed, some env, tr ++ [.received s], st⟩
    else
      match pyLoads s with
      | none => ⟨.error .protocolError, some env, tr ++ [.received s], st⟩
      | some j => ⟨.ok j, some env, tr ++ [.received s], st⟩

/-- `_send_request`: the connection check (`if not self.socket`), the counter
increment, envelope construction, `json.dumps` plus the newline terminator,
one `socket.send` (a closed handle raises before anything is written), and
the receive half.  The `params or \x7b\x7d` default replaces an absent params
argument by the empty mapping. -/
def send_request (st : Log4MCPClient) (ex : Exchange) (method : String)
    (params : Option (List (String × Json))) : CallResult :=
  match st.socket with
  | .none => ⟨.error .notConnected, none, [], st⟩
  | .conn isOpen =>
    let st1 := { st with request_id := st.request_id + 1 }
    let env : RequestEnvelope := ⟨toString st1.request_id, method, params.getD []⟩
    let line := dumpsChars (requestJson env) ++ ['\x0a']
    if isOpen then
      match ex.send with
      | .err => ⟨.error .transportError, some env, [], st1⟩
      | .accept n => recvStep st1 env [.sent line (min n line.length)] ex.recv
      | .acceptAll => recvStep st1 env [.sent line line.length] ex.recv
    else ⟨.error .transportError, some env, [], st1⟩

/-- The body of `close()` without its `try`/`except`: nothing to do when no
socket was ever stored; otherwise the OS handle is released, which may itself
fail (`releaseFails`).  The socket attribute is never reset to `None`. -/
def closeRaw (st : Log4MCPClient) (releaseFails : Bool) :
    Except RpcError Log4MCPClient :=
  match st.socket with
  | .none => .ok st
  | .conn _ =>
      if releaseFails then .error .transportError
      else .ok { st with socket := .conn false }

/-- `close()`: the body runs under `try`/`except Exception`, so an error from
the release is caught and reported on stderr instead of propagating. -/
def close (st : Log4MCPClient) (releaseFails : Bool) :
    Log4MCPClient × Option RpcError :=
  match closeRaw st releaseFails with
  | .ok st1 => (st1, Option.none)
  | .error e => ({ st with socket := .conn false }, some e)

/-- `log_message`: facade over `log.message`. -/
def log_message (st : Log4MCPClient) (ex : Exchange)
    (logger_id level message : String) : CallResult :=
  send_request st ex "log.message"
    (some [("loggerId", Json.str logger_id), ("level", Json.str level),
           ("message", Json.str message)])

/-- `get_entries`: facade over `log.getEntries`; an absent level filter is
passed through as Python `None` and serialized as JSON `null`. -/
def get_entries (st : Log4MCPClient) (ex : Exchange)
    (logger_id : String) (level : Option String) : CallResult :=
  send_request st ex "log.getEntries"
    (some [("loggerId", Json.str logger_id),
           ("level", match level with | Option.none => Json.null | some l => Json.str l)])

/-- `clear_logs`: facade over `log.clear`. -/
def clear_logs (st : Log4MCPClient) (ex : Exchange) (logger_id : String) : CallResult :=
  send_request st ex "log.clear" (some [("loggerId", Json.str logger_id)])

/-- `set_log_level`: facade over `log.setLevel`. -/
def set_log_level (st : Log4MCPClient) (ex : Exchange)
    (logger_id level : String) : CallResult :=
  send_request st ex "log.setLevel"
    (some [("loggerId", Json.str logger_id), ("level", Json.str level)])

/-- `get_capabilities`: facade over `system.capabilities`, with no params
argument. -/
def get_capabilities (st : Log4MCPClient) (ex : Exchange) : CallResult :=
  send_request st ex "system.capabilities" Option.none

/-- One requested call in a sequence: the method and params handed to
`_send_request` and the network's behaviour for the exchange. -/
structure CallSpec where
  method : String
  params : Option (List (String × Json))
  ex : Exchange

/-- Run a sequence of calls on one client instance, threading its state. -/
def runCalls : Log4MCPClient → List CallSpec → List CallResult
  | _, [] => []
  | st, c :: cs =>
      let r := send_request st c.ex c.method c.params
      r :: runCalls r.final cs

/-- The ids of the envelopes a sequence of calls built. -/
def builtIds : List CallResult → List String
  | [] => []
  | r :: rs =>
      (match r.built with
       | some env => [env.id]
       | Option.none => []) ++ builtIds rs

/-- The texts a call handed to `socket.send`. -/
def sentData (r : CallResult) : List (List Char) :=
  r.trace.filterMap (fun e => match e with | .sent d _ => some d | _ => Option.none)

/-- The remainder after a rendered number does not silently extend it: its
first character is no digit and none of `.`, `e`, `E`. -/
def delimOk : List Char → Bool
  | [] => true
  | c :: _ => !(c.isDigit || c == '.' || c == 'e' || c == 'E')

/-- Digit characters are digits. -/
theorem digitChar_isDigit (d : Nat) (h : d < 10) : (digitChar d).isDigit = true := by
  interval_cases d <;> decide

/-- Digit characters decode back to their value. -/
theorem digitChar_toNat (d : Nat) (h : d < 10) : (digitChar d).toNat - 48 = d := by
  interval_cases d <;> decide

/-- Only the zero digit renders as `0`. -/
theorem digitChar_eq_zero_iff (d : Nat) (h : d < 10) : digitChar d = '0' ↔ d = 0 := by
  interval_cases d <;> decide

/-- The accumulator of `natCharsAux` is a plain suffix. -/
theorem natCharsAux_append : ∀ (n : Nat) (acc : List Char),
    natCharsAux n acc = natCharsAux n [] ++ acc
  | 0, acc => by simp [natCharsAux]
  | m + 1, acc => by
      rw [natCharsAux, natCharsAux,
        natCharsAux_append ((m + 1) / 10) (digitChar ((m + 1) % 10) :: acc),
        natCharsAux_append ((m + 1) / 10) [digitChar ((m + 1) % 10)]]
      simp
decreasing_by all_goals exact Nat.div_lt_self (by omega) (by omega)

/-- Rendering a one-digit number. -/
theorem natChars_small (n : Nat) (h1 : 0 < n) (h2 : n < 10) :
    natChars n = [digitChar n] := by
  rw [natChars, if_neg (by omega)]
  match n, h1 with
  | m + 1, _ =>
      rw [natCharsAux]
      have hd : (m + 1) / 10 = 0 := by omega
      have hm : (m + 1) % 10 = m + 1 := by omega
      rw [hd, hm, natCharsAux]

/-- Rendering a multi-digit number peels off the last digit. -/
theorem natChars_expand (n : Nat) (h : 10 ≤ n) :
    natChars n = natChars (n / 10) ++ [digitChar (n % 10)] := by
  rw [natChars, if_neg (by omega), natChars, if_neg (by omega)]
  match n, h with
  | m + 1, _ => rw [natCharsAux, natCharsAux_append]

/-- Every character of a rendered natural number is a digit. -/
theorem natChars_digits : ∀ (n : Nat), ∀ c ∈ natChars n, c.isDigit = true
  | 0 => by
      intro c hc
      simp [natChars] at hc
      subst hc; decide
  | m + 1 => by
      intro c hc
      by_cases h10 : m + 1 < 10
      · rw [natChars_small (m + 1) (by omega) h10] at hc
        simp at hc
        subst hc
        exact digitChar_isDigit _ (by omega)
      · rw [natChars_expand (m + 1) (by omega)] at hc
        rw [List.mem_append] at hc
        cases hc with
        | inl h => exact natChars_digits ((m + 1) / 10) c h
        | inr h =>
            simp at h
            subst h
            exact digitChar_isDigit _ (Nat.mod_lt _ (by omega))
decreasing_by exact Nat.div_lt_self (by omega) (by omega)

/-- A rendered natural number starts with a digit, and with a nonzero digit
when the number is positive. -/
theorem natChars_head : ∀ (n : Nat), ∃ c cs, natChars n = c :: cs ∧ c.isDigit = true ∧
    (0 < n → c ≠ '0')
  | 0 => by
      refine ⟨'0', [], by simp [natChars], by decide, by omega⟩
  | m + 1 => by
      by_cases h10 : m + 1 < 10
      · refine ⟨digitChar (m + 1), [], natChars_small (m + 1) (by omega) h10, ?_, ?_⟩
        · exact digitChar_isDigit _ (by omega)
        · intro _
          rw [Ne, digitChar_eq_zero_iff _ (by omega)]
          omega
      · obtain ⟨c, cs, hc, hdig, hz⟩ := natChars_head ((m + 1) / 10)
        refine ⟨c, cs ++ [digitChar ((m + 1) % 10)], ?_, hdig, fun _ => hz (by omega)⟩
        rw [natChars_expand (m + 1) (by omega), hc]
        simp
decreasing_by exact Nat.div_lt_self (by omega) (by omega)

/-- Folding the digits of a rendered natural number recovers it. -/
theorem digitsVal_natChars : ∀ n : Nat, digitsVal (natChars n) = n
  | 0 => by decide
  | m + 1 => by
      by_cases h10 : m + 1 < 10
      · rw [natChars_small (m + 1) (by omega) h10]
        show 0 * 10 + ((digitChar (m + 1)).toNat - 48) = m + 1
        rw [Nat.zero_mul, Nat.zero_add, digitChar_toNat _ (by omega)]
      · rw [natChars_expand (m + 1) (by omega)]
        rw [digitsVal, List.foldl_append]
        have ih := digitsVal_natChars ((m + 1) / 10)
        rw [digitsVal] at ih
        rw [ih]
        show (m + 1) / 10 * 10 + ((digitChar ((m + 1) % 10)).toNat - 48) = m + 1
        rw [digitChar_toNat _ (Nat.mod_lt _ (by omega))]
        omega
decreasing_by exact Nat.div_lt_self (by omega) (by omega)

/-- `takeWhile`/`dropWhile` split a digit run from a non-digit remainder. -/
theorem digits_span : ∀ (ds : List Char), (∀ c ∈ ds, c.isDigit = true) →
    ∀ rest : List Char, (∀ c ∈ rest.head?, c.isDigit = false) →
      (ds ++ rest).takeWhile Char.isDigit = ds ∧
      (ds ++ rest).dropWhile Char.isDigit = rest
  | [], _, rest, hr => by
      cases rest with
      | nil => simp
      | cons c t =>
          have : c.isDigit = false := hr c (by simp)
          simp [List.takeWhile, List.dropWhile, this]
  | d :: ds, hds, rest, hr => by
      have hd : d.isDigit = true := hds d (by simp)
      have ⟨h1, h2⟩ := digits_span ds (fun c hc => hds c (by simp [hc])) rest hr
      simp [List.takeWhile, List.dropWhile, hd, h1, h2]

/-- A `delimOk` remainder does not look like a float continuation. -/
theorem delimOk_floatNext (rest : List Char) (h : delimOk rest = true) :
    floatNext rest = false := by
  cases rest with
  | nil => rfl
  | cons c t =>
      simp [delimOk] at h
      simp [floatNext, h]

/-- A `delimOk` remainder does not start with a digit. -/
theorem delimOk_head (rest : List Char) (h : delimOk rest = true) :
    ∀ c ∈ rest.head?, c.isDigit = false := by
  cases rest with
  | nil => simp
  | cons c t =>
      simp [delimOk] at h
      simp [h]

/-- Scanning a rendered natural number recovers it, leaving the remainder. -/
theorem natScan_natChars (n : Nat) (rest : List Char) (hr : delimOk rest = true) :
    natScan (natChars n ++ rest) = some (n, rest) := by
  obtain ⟨c, cs, hc, hdig, hz⟩ := natChars_head n
  have hspan := digits_span (c :: cs) (by rw [← hc]; exact natChars_digits n) rest
    (delimOk_head rest hr)
  rw [hc, List.cons_append]
  by_cases h0 : n = 0
  · subst h0
    rw [show natChars 0 = ['0'] from rfl] at hc
    injection hc with h1 h2
    subst h1
    subst h2
    simp [natScan, delimOk_floatNext rest hr]
  · have hcz : c ≠ '0' := hz (by omega)
    rw [natScan, if_neg hcz, if_pos hdig]
    rw [List.cons_append] at hspan
    rw [List.takeWhile, hdig] at hspan
    have htake : (cs ++ rest).takeWhile Char.isDigit = cs := by
      have := hspan.1
      simpa using this
    have hdrop : (cs ++ rest).dropWhile Char.isDigit = rest := by
      have := hspan.2
      rw [List.dropWhile] at this
      simpa [hdig] using this
    rw [htake, hdrop]
    show (if floatNext rest = true then Option.none else some (digitsVal (c :: cs), rest))
        = some (n, rest)
    have hval : digitsVal (c :: cs) = n := by rw [← hc]; exact digitsVal_natChars n
    rw [delimOk_floatNext rest hr]
    simp [hval]

/-- Scanning a rendered integer recovers it, leaving the remainder. -/
theorem numScan_intChars (i : Int) (rest : List Char) (hr : delimOk rest = true) :
    numScan (intChars i ++ rest) = some (Json.num i, rest) := by
  cases i with
  | ofNat n =>
      obtain ⟨c, cs, hc, hdig, -⟩ := natChars_head n
      have hcm : c ≠ '-' := by
        intro h
        rw [h] at hdig
        exact absurd hdig (by decide)
      rw [intChars, hc, List.cons_append, numScan, if_neg hcm, ← List.cons_append, ← hc,
        natScan_natChars n rest hr]
      rfl
  | negSucc n =>
      rw [intChars, List.cons_append, numScan, if_pos rfl, natScan_natChars (n + 1) rest hr]
      show some (Json.num (-((n + 1 : Nat) : Int)), rest) = some (Json.num (Int.negSucc n), rest)
      norm_num [Int.negSucc_eq]

/-- Hex digits render-decode correctly. -/
theorem unhexDigit_hexLower (d : Nat) (h : d < 16) : unhexDigit (hexLower d) = some d := by
  interval_cases d <;> decide

/-- A four-digit hex rendering decodes back to its value. -/
theorem unhexQuad_expand (n : Nat) (h : n < 65536) :
    unhexQuad (hexLower (n / 4096 % 16)) (hexLower (n / 256 % 16))
      (hexLower (n / 16 % 16)) (hexLower (n % 16)) = some n := by
  have h1 : n / 4096 % 16 < 16 := Nat.mod_lt _ (by omega)
  have h2 : n / 256 % 16 < 16 := Nat.mod_lt _ (by omega)
  have h3 : n / 16 % 16 < 16 := Nat.mod_lt _ (by omega)
  have h4 : n % 16 < 16 := Nat.mod_lt _ (by omega)
  simp only [unhexQuad, unhexDigit_hexLower _ h1, unhexDigit_hexLower _ h2,
    unhexDigit_hexLower _ h3, unhexDigit_hexLower _ h4, Option.some.injEq]
  omega

/-- A character's code point is a Unicode scalar value. -/
theorem char_scalar (c : Char) :
    c.toNat < 0xd800 ∨ (0xdfff < c.toNat ∧ c.toNat < 0x110000) := c.valid

/-- Scanning a basic-plane `\uXXXX` escape with a non-surrogate value yields
its character. -/
theorem strScan_u_step (f : Nat) (a b c d : Char) (n : Nat) (rest : List Char)
    (hq : unhexQuad a b c d = some n)
    (hns1 : ¬(0xd800 ≤ n ∧ n < 0xdc00)) (hns2 : ¬(0xdc00 ≤ n ∧ n < 0xe000)) :
    strScan (f + 1) ('\x5c' :: 'u' :: a :: b :: c :: d :: rest) =
      consScan (Char.ofNat n) (strScan f rest) := by
  simp only [strScan]
  rw [hq]
  simp [hns1, hns2]

/-- Scanning a surrogate-pair escape yields the combined code point. -/
theorem strScan_u2_step (f : Nat) (a b c d e g h i : Char) (n m : Nat) (rest : List Char)
    (hq1 : unhexQuad a b c d = some n) (hq2 : unhexQuad e g h i = some m)
    (hs1 : 0xd800 ≤ n ∧ n < 0xdc00) (hs2 : 0xdc00 ≤ m ∧ m < 0xe000) :
    strScan (f + 1)
      ('\x5c' :: 'u' :: a :: b :: c :: d :: '\x5c' :: 'u' :: e :: g :: h :: i :: rest) =
      consScan (Char.ofNat (0x10000 + (n - 0xd800) * 0x400 + (m - 0xdc00))) (strScan f rest) := by
  simp only [strScan]
  rw [hq1]
  simp only [hs1, if_true, if_pos hs1]
  rw [hq2]
  simp [hs2]

/-- Scanning an astral-plane surrogate-pair escape yields the character. -/
theorem strScan_astral (c : Char) (f : Nat) (tail : List Char)
    (h8 : ¬(0x20 ≤ c.toNat ∧ c.toNat ≤ 0x7e)) (h9 : ¬c.toNat < 0x10000) :
    strScan (f + 1) (pyEsc c ++ tail) = consScan c (strScan f tail) := by
  have hv := char_scalar c
  have hesc : pyEsc c =
      ['\x5c', 'u',
       hexLower ((0xd800 + (c.toNat - 0x10000) / 0x400) / 4096 % 16),
       hexLower ((0xd800 + (c.toNat - 0x10000) / 0x400) / 256 % 16),
       hexLower ((0xd800 + (c.toNat - 0x10000) / 0x400) / 16 % 16),
       hexLower ((0xd800 + (c.toNat - 0x10000) / 0x400) % 16),
       '\x5c', 'u',
       hexLower ((0xdc00 + (c.toNat - 0x10000) % 0x400) / 4096 % 16),
       hexLower ((0xdc00 + (c.toNat - 0x10000) % 0x400) / 256 % 16),
       hexLower ((0xdc00 + (c.toNat - 0x10000) % 0x400) / 16 % 16),
       hexLower ((0xdc00 + (c.toNat - 0x10000) % 0x400) % 16)] := by
    have hq : ¬c = '\x22' := by intro h; subst h; exact h9 (by decide)
    have hb : ¬c = '\x5c' := by intro h; subst h; exact h9 (by decide)
    have h3 : ¬c = '\x08' := by intro h; subst h; exact h9 (by decide)
    have h4 : ¬c = '\x09' := by intro h; subst h; exact h9 (by decide)
    have h5 : ¬c = '\x0a' := by intro h; subst h; exact h9 (by decide)
    have h6 : ¬c = '\x0c' := by intro h; subst h; exact h9 (by decide)
    have h7 : ¬c = '\x0d' := by intro h; subst h; exact h9 (by decide)
    simp [pyEsc, hq, hb, h3, h4, h5, h6, h7, h8, h9]
  rw [hesc, List.cons_append, List.cons_append, List.cons_append, List.cons_append,
    List.cons_append, List.cons_append, List.cons_append, List.cons_append,
    List.cons_append, List.cons_append, List.cons_append, List.cons_append,
    List.nil_append]
  rw [strScan_u2_step f _ _ _ _ _ _ _ _ _ _ tail
    (unhexQuad_expand (0xd800 + (c.toNat - 0x10000) / 0x400) (by omega))
    (unhexQuad_expand (0xdc00 + (c.toNat - 0x10000) % 0x400) (by omega))
    (by omega) (by omega)]
  rw [show 0x10000 + (0xd800 + (c.toNat - 0x10000) / 0x400 - 0xd800) * 0x400 +
      (0xdc00 + (c.toNat - 0x10000) % 0x400 - 0xdc00) = c.toNat by omega]
  rw [Char.ofNat_toNat c]

/-- Scanning a basic-plane `\uXXXX` escape yields its character. -/
theorem strScan_bmp (c : Char) (f : Nat) (tail : List Char)
    (h8 : ¬(0x20 ≤ c.toNat ∧ c.toNat ≤ 0x7e)) (h9 : c.toNat < 0x10000)
    (hsp : ¬c = '\x08') (hsp2 : ¬c = '\x09') (hsp3 : ¬c = '\x0a')
    (hsp4 : ¬c = '\x0c') (hsp5 : ¬c = '\x0d') :
    strScan (f + 1) (pyEsc c ++ tail) = consScan c (strScan f tail) := by
  have hv := char_scalar c
  have hesc : pyEsc c =
      ['\x5c', 'u', hexLower (c.toNat / 4096 % 16), hexLower (c.toNat / 256 % 16),
       hexLower (c.toNat / 16 % 16), hexLower (c.toNat % 16)] := by
    have hq : ¬c = '\x22' := by intro h; subst h; exact h8 (by decide)
    have hb : ¬c = '\x5c' := by intro h; subst h; exact h8 (by decide)
    simp [pyEsc, hq, hb, hsp, hsp2, hsp3, hsp4, hsp5, h8, h9]
  rw [hesc, List.cons_append, List.cons_append, List.cons_append, List.cons_append,
    List.cons_append, List.cons_append, List.nil_append]
  rw [strScan_u_step f _ _ _ _ _ tail (unhexQuad_expand c.toNat (by omega))
    (by omega) (by omega)]
  rw [Char.ofNat_toNat c]

/-- Scanning one escaped character consumes exactly the escape. -/
theorem strScan_pyEsc (c : Char) (f : Nat) (tail : List Char) :
    strScan (f + 1) (pyEsc c ++ tail) = consScan c (strScan f tail) := by
  by_cases h1 : c = '\x22'
  · subst h1; simp [pyEsc, strScan]
  by_cases h2 : c = '\x5c'
  · subst h2; simp [pyEsc, strScan]
  by_cases h3 : c = '\x08'
  · subst h3; simp [pyEsc, strScan]
  by_cases h4 : c = '\x09'
  · subst h4; simp [pyEsc, strScan]
  by_cases h5 : c = '\x0a'
  · subst h5; simp [pyEsc, strScan]
  by_cases h6 : c = '\x0c'
  · subst h6; simp [pyEsc, strScan]
  by_cases h7 : c = '\x0d'
  · subst h7; simp [pyEsc, strScan]
  by_cases h8 : 0x20 ≤ c.toNat ∧ c.toNat ≤ 0x7e
  · have hesc : pyEsc c = [c] := by
      simp [pyEsc, h1, h2, h3, h4, h5, h6, h7, h8]
    rw [hesc]
    simp [strScan, h1, h2, show ¬c.toNat < 0x20 by omega]
  by_cases h9 : c.toNat < 0x10000
  · exact strScan_bmp c f tail h8 h9 h3 h4 h5 h6 h7
  · exact strScan_astral c f tail h8 h9

/-- Scanning an escaped character run, then the closing quote, undoes
`pyEscRun`. -/
theorem strScan_pyEscRun (s : List Char) (rest : List Char) (fuel : Nat)
    (hfuel : s.length < fuel) :
    strScan fuel (pyEscRun s ++ '\x22' :: rest) = some (s, rest) := by
  induction s generalizing rest fuel with
  | nil =>
      cases fuel with
      | zero => simp at hfuel
      | succ f => simp [pyEscRun, strScan]
  | cons c cs ih =>
      cases fuel with
      | zero => simp at hfuel
      | succ f =>
      have hf : cs.length < f := by
        simp only [List.length_cons] at hfuel
        omega
      rw [pyEscRun, List.append_assoc, strScan_pyEsc, ih _ _ hf]
      rfl

/-- Escaping never shortens a string. -/
theorem pyEscRun_length (s : List Char) : s.length ≤ (pyEscRun s).length := by
  induction s with
  | nil => simp [pyEscRun]
  | cons c cs ih =>
      rw [pyEscRun, List.length_append, List.length_cons]
      have hpos : 1 ≤ (pyEsc c).length := by
        rw [pyEsc]
        by_cases h1 : c = '\x22'
        · simp [h1]
        rw [if_neg h1]
        by_cases h2 : c = '\x5c'
        · simp [h2]
        rw [if_neg h2]
        by_cases h3 : c = '\x08'
        · simp [h3]
        rw [if_neg h3]
        by_cases h4 : c = '\x09'
        · simp [h4]
        rw [if_neg h4]
        by_cases h5 : c = '\x0a'
        · simp [h5]
        rw [if_neg h5]
        by_cases h6 : c = '\x0c'
        · simp [h6]
        rw [if_neg h6]
        by_cases h7 : c = '\x0d'
        · simp [h7]
        rw [if_neg h7]
        by_cases h8 : 0x20 ≤ c.toNat ∧ c.toNat ≤ 0x7e
        · simp [h8]
        rw [if_neg h8]
        by_cases h9 : c.toNat < 0x10000
        · simp [h9]
        rw [if_neg h9]
        simp
      omega

/-- A rendered value is nonempty and starts with a character that is neither
JSON whitespace nor a closing bracket. -/
theorem dumpsChars_head (j : Json) :
    ∃ c t, dumpsChars j = c :: t ∧
      ¬(c = ' ' ∨ c = '\x09' ∨ c = '\x0a' ∨ c = '\x0d') ∧ c ≠ ']' := by
  cases j with
  | null => exact ⟨'n', _, rfl, by decide, by decide⟩
  | bool b =>
      cases b with
      | false => exact ⟨'f', _, rfl, by decide, by decide⟩
      | true => exact ⟨'t', _, rfl, by decide, by decide⟩
  | num i =>
      cases i with
      | ofNat n =>
          obtain ⟨c, cs, hc, hdig, -⟩ := natChars_head n
          refine ⟨c, cs, by rw [show dumpsChars (Json.num (Int.ofNat n)) = natChars n from rfl, hc],
            ?_, ?_⟩
          · rintro (h | h | h | h) <;> (subst h; exact absurd hdig (by decide))
          · intro h; subst h; exact absurd hdig (by decide)
      | negSucc n => exact ⟨'-', _, rfl, by decide, by decide⟩
  | str s => exact ⟨'\x22', _, rfl, by decide, by decide⟩
  | arr xs => exact ⟨'[', _, rfl, by decide, by decide⟩
  | obj kvs => exact ⟨'\x7b', _, rfl, by decide, by decide⟩

/-- `skipWs` does not touch a non-blank head. -/
theorem skipWs_cons_not (c : Char) (l : List Char)
    (h : ¬(c = ' ' ∨ c = '\x09' ∨ c = '\x0a' ∨ c = '\x0d')) :
    skipWs (c :: l) = c :: l := by
  simp [skipWs, h]

/-- `skipWs` does not touch a rendered value. -/
theorem skipWs_dumpsChars (j : Json) (x : List Char) :
    skipWs (dumpsChars j ++ x) = dumpsChars j ++ x := by
  obtain ⟨c, t, hc, hws, -⟩ := dumpsChars_head j
  rw [hc, List.cons_append, skipWs_cons_not _ _ hws]

/-- A nonempty rendered element list starts with its first element. -/
theorem dumpsItems_cons (x : Json) (xs : List Json) :
    ∃ q, dumpsItems (x :: xs) = dumpsChars x ++ q := by
  cases xs with
  | nil => exact ⟨[], by simp [dumpsItems]⟩
  | cons y ys => exact ⟨',' :: ' ' :: dumpsItems (y :: ys), rfl⟩

/-- A nonempty rendered member list starts with the quote of its first key. -/
theorem dumpsPairs_cons (k : String) (v : Json) (kvs : List (String × Json)) :
    ∃ t, dumpsPairs ((k, v) :: kvs) = '\x22' :: t := by
  cases kvs with
  | nil => exact ⟨_, rfl⟩
  | cons m ms => exact ⟨_, rfl⟩

/-- Unfolding of the object branch of `valScan`. -/
theorem valScan_obj_step (f : Nat) (l : List Char) :
    valScan (f + 1) ('\x7b' :: l) =
      match skipWs l with
      | [] => Option.none
      | d :: r1 =>
          if d = '\x7d' then some (Json.obj [], r1)
          else (pairsScan f (d :: r1)).map (fun p => (Json.obj p.1, p.2)) := rfl

/-- Unfolding of the array branch of `valScan`. -/
theorem valScan_arr_step (f : Nat) (l : List Char) :
    valScan (f + 1) ('[' :: l) =
      match skipWs l with
      | [] => Option.none
      | d :: r1 =>
          if d = ']' then some (Json.arr [], r1)
          else (itemsScan f (d :: r1)).map (fun p => (Json.arr p.1, p.2)) := rfl

/-- Unfolding of the string branch of `valScan`. -/
theorem valScan_str_step (f : Nat) (l : List Char) :
    valScan (f + 1) ('\x22' :: l) =
      (strScan f l).map (fun p => (Json.str (String.mk p.1), p.2)) := rfl

/-- Unfolding of the negative-number branch of `valScan`. -/
theorem valScan_minus_step (f : Nat) (l : List Char) :
    valScan (f + 1) ('-' :: l) = numScan ('-' :: l) := rfl

/-- Unfolding of one `itemsScan` step. -/
theorem itemsScan_step (f : Nat) (l : List Char) :
    itemsScan (f + 1) l =
      match valScan f l with
      | Option.none => Option.none
      | some (v, r1) =>
          match skipWs r1 with
          | [] => Option.none
          | e :: r2 =>
            if e = ',' then
              match itemsScan f (skipWs r2) with
              | Option.none => Option.none
              | some (vs, r3) => some (v :: vs, r3)
            else if e = ']' then some ([v], r2)
            else Option.none := rfl

/-- Unfolding of one `pairsScan` step at a key quote. -/
theorem pairsScan_quote_step (f : Nat) (l : List Char) :
    pairsScan (f + 1) ('\x22' :: l) =
      match strScan f l with
      | Option.none => Option.none
      | some (k, r1) =>
          match skipWs r1 with
          | [] => Option.none
          | d :: r2 =>
            if d = ':' then
              match valScan f (skipWs r2) with
              | Option.none => Option.none
              | some (v, r3) =>
                match skipWs r3 with
                | [] => Option.none
                | e :: r4 =>
                  if e = ',' then
                    match pairsScan f (skipWs r4) with
                    | Option.none => Option.none
                    | some (kvs, r5) => some ((String.mk k, v) :: kvs, r5)
                  else if e = '\x7d' then some ([(String.mk k, v)], r4)
                  else Option.none
            else Option.none := rfl

mutual

/-- Scanning a rendered value recovers it, leaving the remainder intact. -/
theorem valScan_dumpsChars : ∀ (j : Json) (fuel : Nat) (rest : List Char),
    (dumpsChars j).length < fuel → delimOk rest = true →
    valScan fuel (dumpsChars j ++ rest) = some (j, rest)
  | .null, fuel, rest, hlen, _ => by
      cases fuel with
      | zero => exact absurd hlen (by omega)
      | succ f =>
          rw [show dumpsChars Json.null = ['n', 'u', 'l', 'l'] from rfl]
          simp [valScan]
  | .bool true, fuel, rest, hlen, _ => by
      cases fuel with
      | zero => exact absurd hlen (by omega)
      | succ f =>
          rw [show dumpsChars (Json.bool true) = ['t', 'r', 'u', 'e'] from rfl]
          simp [valScan]
  | .bool false, fuel, rest, hlen, _ => by
      cases fuel with
      | zero => exact absurd hlen (by omega)
      | succ f =>
          rw [show dumpsChars (Json.bool false) = ['f', 'a', 'l', 's', 'e'] from rfl]
          simp [valScan]
  | .num (Int.ofNat n), fuel, rest, hlen, hrest => by
      cases fuel with
      | zero => exact absurd hlen (by omega)
      | succ f =>
          obtain ⟨c, cs, hc, hdig, -⟩ := natChars_head n
          have e1 : ¬c = '\x7b' := by intro h; subst h; exact absurd hdig (by decide)
          have e2 : ¬c = '[' := by intro h; subst h; exact absurd hdig (by decide)
          have e3 : ¬c = '\x22' := by intro h; subst h; exact absurd hdig (by decide)
          have e4 : ¬c = 'n' := by intro h; subst h; exact absurd hdig (by decide)
          have e5 : ¬c = 't' := by intro h; subst h; exact absurd hdig (by decide)
          have e6 : ¬c = 'f' := by intro h; subst h; exact absurd hdig (by decide)
          rw [show dumpsChars (Json.num (Int.ofNat n)) = natChars n from rfl, hc,
            List.cons_append]
          simp only [valScan, if_neg e1, if_neg e2, if_neg e3, if_neg e4, if_neg e5,
            if_neg e6, if_pos (Or.inr hdig)]
          rw [← List.cons_append, ← hc]
          exact numScan_intChars (Int.ofNat n) rest hrest
  | .num (Int.negSucc n), fuel, rest, hlen, hrest => by
      cases fuel with
      | zero => exact absurd hlen (by omega)
      | succ f =>
          rw [show dumpsChars (Json.num (Int.negSucc n)) = '-' :: natChars (n + 1) from rfl,
            List.cons_append, valScan_minus_step, ← List.cons_append]
          exact numScan_intChars (Int.negSucc n) rest hrest
  | .str s, fuel, rest, hlen, _ => by
      cases fuel with
      | zero => exact absurd hlen (by omega)
      | succ f =>
          have hpe := pyEscRun_length s.data
          rw [show dumpsChars (Json.str s) = '\x22' :: pyEscRun s.data ++ ['\x22'] from rfl]
            at hlen ⊢
          simp only [List.length_cons, List.length_append, List.length_nil] at hlen
          simp only [List.append_assoc, List.cons_append, List.singleton_append, List.nil_append]
          rw [valScan_str_step, strScan_pyEscRun s.data rest f (by omega)]
          rfl
  | .arr [], fuel, rest, hlen, _ => by
      cases fuel with
      | zero => exact absurd hlen (by omega)
      | succ f =>
          rw [show dumpsChars (Json.arr []) = ['[', ']'] from rfl]
          simp only [List.cons_append, List.nil_append]
          rw [valScan_arr_step, skipWs_cons_not _ _ (by decide)]
          simp
  | .arr (x :: xs), fuel, rest, hlen, hrest => by
      cases fuel with
      | zero => exact absurd hlen (by omega)
      | succ f =>
          obtain ⟨q, hq⟩ := dumpsItems_cons x xs
          obtain ⟨c, t, hcx, hws, hnb⟩ := dumpsChars_head x
          rw [show dumpsChars (Json.arr (x :: xs)) = '[' :: dumpsItems (x :: xs) ++ [']']
            from rfl] at hlen ⊢
          simp only [List.length_cons, List.length_append, List.length_nil] at hlen
          simp only [List.append_assoc, List.cons_append, List.singleton_append, List.nil_append]
          rw [valScan_arr_step]
          have hskip : skipWs (dumpsItems (x :: xs) ++ ']' :: rest) =
              dumpsItems (x :: xs) ++ ']' :: rest := by
            rw [hq, List.append_assoc, skipWs_dumpsChars]
          have hcons : dumpsItems (x :: xs) ++ ']' :: rest = c :: (t ++ (q ++ ']' :: rest)) := by
            rw [hq, hcx]
            simp
          have hitems : itemsScan f (c :: (t ++ (q ++ ']' :: rest))) = some (x :: xs, rest) := by
            rw [← hcons]
            exact itemsScan_dumpsItems (x :: xs) f rest (by simp) (by omega)
          rw [hskip, hcons]
          simp [hnb, hitems]
  | .obj [], fuel, rest, hlen, _ => by
      cases fuel with
      | zero => exact absurd hlen (by omega)
      | succ f =>
          rw [show dumpsChars (Json.obj []) = ['\x7b', '\x7d'] from rfl]
          simp only [List.cons_append, List.nil_append]
          rw [valScan_obj_step, skipWs_cons_not _ _ (by decide)]
          simp
  | .obj ((k, v) :: kvs), fuel, rest, hlen, hrest => by
      cases fuel with
      | zero => exact absurd hlen (by omega)
      | succ f =>
          obtain ⟨t, ht⟩ := dumpsPairs_cons k v kvs
          rw [show dumpsChars (Json.obj ((k, v) :: kvs)) =
              '\x7b' :: dumpsPairs ((k, v) :: kvs) ++ ['\x7d'] from rfl] at hlen ⊢
          simp only [List.length_cons, List.length_append, List.length_nil] at hlen
          simp only [List.append_assoc, List.cons_append, List.singleton_append, List.nil_append]
          rw [valScan_obj_step]
          have hskip : skipWs (dumpsPairs ((k, v) :: kvs) ++ '\x7d' :: rest) =
              dumpsPairs ((k, v) :: kvs) ++ '\x7d' :: rest := by
            rw [ht, List.cons_append, skipWs_cons_not _ _ (by decide)]
          have hcons : dumpsPairs ((k, v) :: kvs) ++ '\x7d' :: rest =
              '\x22' :: (t ++ '\x7d' :: rest) := by
            rw [ht, List.cons_append]
          have hpairs : pairsScan f ('\x22' :: (t ++ '\x7d' :: rest)) =
              some ((k, v) :: kvs, rest) := by
            rw [← hcons]
            exact pairsScan_dumpsPairs ((k, v) :: kvs) f rest (by simp) (by omega)
          rw [hskip, hcons]
          simp [hpairs]

/-- Scanning a rendered nonempty member list recovers it and consumes the
closing brace. -/
theorem pairsScan_dumpsPairs : ∀ (kvs : List (String × Json)) (fuel : Nat) (rest : List Char),
    kvs ≠ [] → (dumpsPairs kvs).length + 1 < fuel →
    pairsScan fuel (dumpsPairs kvs ++ '\x7d' :: rest) = some (kvs, rest)
  | [], _, _, hne, _ => absurd rfl hne
  | (k, v) :: [], fuel, rest, _, hlen => by
      cases fuel with
      | zero => exact absurd hlen (by omega)
      | succ f =>
          have hpe := pyEscRun_length k.data
          rw [show dumpsPairs [(k, v)] =
              '\x22' :: pyEscRun k.data ++ '\x22' :: ':' :: ' ' :: dumpsChars v from rfl]
            at hlen ⊢
          simp only [List.length_cons, List.length_append, List.length_nil] at hlen
          simp only [List.append_assoc, List.cons_append, List.singleton_append, List.nil_append]
          rw [pairsScan_quote_step, strScan_pyEscRun k.data _ f (by omega)]
          have hval := valScan_dumpsChars v f ('\x7d' :: rest) (by omega) rfl
          simp [skipWs, hval, skipWs_dumpsChars]
  | (k, v) :: (mk, mv) :: kvs, fuel, rest, _, hlen => by
      cases fuel with
      | zero => exact absurd hlen (by omega)
      | succ f =>
          have hpe := pyEscRun_length k.data
          obtain ⟨t2, ht2⟩ := dumpsPairs_cons mk mv kvs
          rw [show dumpsPairs ((k, v) :: (mk, mv) :: kvs) =
              '\x22' :: pyEscRun k.data ++ '\x22' :: ':' :: ' ' :: dumpsChars v
                ++ ',' :: ' ' :: dumpsPairs ((mk, mv) :: kvs) from rfl] at hlen ⊢
          simp only [List.length_cons, List.length_append, List.length_nil] at hlen
          simp only [List.append_assoc, List.cons_append, List.singleton_append, List.nil_append]
          rw [pairsScan_quote_step, strScan_pyEscRun k.data _ f (by omega)]
          have hval := valScan_dumpsChars v f
            (',' :: ' ' :: (dumpsPairs ((mk, mv) :: kvs) ++ '\x7d' :: rest)) (by omega) rfl
          have hskipP : skipWs (dumpsPairs ((mk, mv) :: kvs) ++ '\x7d' :: rest) =
              dumpsPairs ((mk, mv) :: kvs) ++ '\x7d' :: rest := by
            rw [ht2, List.cons_append, skipWs_cons_not _ _ (by decide)]
          have hrec := pairsScan_dumpsPairs ((mk, mv) :: kvs) f rest (by simp) (by omega)
          simp [skipWs, skipWs_dumpsChars, hval, hskipP, hrec]

/-- Scanning a rendered nonempty element list recovers it and consumes the
closing bracket. -/
theorem itemsScan_dumpsItems : ∀ (xs : List Json) (fuel : Nat) (rest : List Char),
    xs ≠ [] → (dumpsItems xs).length + 1 < fuel →
    itemsScan fuel (dumpsItems xs ++ ']' :: rest) = some (xs, rest)
  | [], _, _, hne, _ => absurd rfl hne
  | x :: [], fuel, rest, _, hlen => by
      cases fuel with
      | zero => exact absurd hlen (by omega)
      | succ f =>
          rw [show dumpsItems [x] = dumpsChars x from rfl] at hlen ⊢
          rw [itemsScan_step, valScan_dumpsChars x f (']' :: rest) (by omega) rfl]
          simp [skipWs]
  | x :: y :: ys, fuel, rest, _, hlen => by
      cases fuel with
      | zero => exact absurd hlen (by omega)
      | succ f =>
          obtain ⟨q, hq⟩ := dumpsItems_cons y ys
          rw [show dumpsItems (x :: y :: ys) =
              dumpsChars x ++ ',' :: ' ' :: dumpsItems (y :: ys) from rfl] at hlen ⊢
          simp only [List.length_cons, List.length_append, List.length_nil] at hlen
          simp only [List.append_assoc, List.cons_append, List.singleton_append, List.nil_append]
          rw [itemsScan_step, valScan_dumpsChars x f
            (',' :: ' ' :: (dumpsItems (y :: ys) ++ ']' :: rest)) (by omega) rfl]
          have hskipI : skipWs (dumpsItems (y :: ys) ++ ']' :: rest) =
              dumpsItems (y :: ys) ++ ']' :: rest := by
            rw [hq, List.append_assoc, skipWs_dumpsChars]
          have hrec := itemsScan_dumpsItems (y :: ys) f rest (by simp) (by omega)
          simp [skipWs, hskipI, hrec]

end


/-- The full codec round trip: `json.loads` recovers every value that
`json.dumps` produced, across a newline terminator. -/
theorem loads_dumpsChars (j : Json) : loads (dumpsChars j ++ ['\x0a']) = some j := by
  rw [loads, skipWs_dumpsChars]
  rw [valScan_dumpsChars j _ ['\x0a']
    (by simp only [List.length_append, List.length_cons, List.length_nil]; omega) (by decide)]
  simp [skipWs]

/-- First value stored under a key of a JSON object (`Option.none` for other
document shapes or a missing key). -/
def jsonField (j : Json) (key : String) : Option Json :=
  match j with
  | .obj kvs => (kvs.find? (fun kv => kv.1 == key)).map Prod.snd
  | _ => Option.none

/-- The text a request envelope puts on the wire: its JSON serialization and
the line-feed terminator, exactly as `_send_request` sends it. -/
def encodeRequest (req : RequestEnvelope) : List Char :=
  dumpsChars (requestJson req) ++ ['\x0a']

/-- A stub echo responder: it parses the request line it was fed, extracts
the id, and replies with a response envelope wrapping that same id in a
`result`. -/
def echoResponder (reqLine : List Char) : Option (List Char) :=
  match loads reqLine with
  | some doc =>
      match jsonField doc "id" with
      | some idv =>
          some (dumpsChars (Json.obj [("jsonrpc", Json.str "2.0"), ("id", idv),
            ("result", Json.obj [])]) ++ ['\x0a'])
      | Option.none => Option.none
  | Option.none => Option.none

/-- `recvStep` never touches the client state. -/
theorem recvStep_final (st : Log4MCPClient) (env : RequestEnvelope) (tr : List IOEvent)
    (rb : RecvBehavior) : (recvStep st env tr rb).final = st := by
  cases rb with
  | err => rfl
  | undecodable => rfl
  | data s =>
      simp only [recvStep]
      split
      · rfl
      · split <;> rfl

/-- `recvStep` keeps the envelope that was built. -/
theorem recvStep_built (st : Log4MCPClient) (env : RequestEnvelope) (tr : List IOEvent)
    (rb : RecvBehavior) : (recvStep st env tr rb).built = some env := by
  cases rb with
  | err => rfl
  | undecodable => rfl
  | data s =>
      simp only [recvStep]
      split
      · rfl
      · split <;> rfl

/-- Any call that passes the connection check leaves the state with the
counter advanced by one and nothing else changed. -/
theorem send_request_final (st : Log4MCPClient) (ex : Exchange) (m : String)
    (p : Option (List (String × Json))) (h : st.socket ≠ SocketAttr.none) :
    (send_request st ex m p).final = { st with request_id := st.request_id + 1 } := by
  match hs : st.socket with
  | .none => exact absurd hs h
  | .conn isOpen =>
      simp only [send_request, hs]
      cases isOpen with
      | false => simp
      | true => cases ex.send <;> simp [recvStep_final]

/-- No call ever changes the socket attribute. -/
theorem send_request_socket (st : Log4MCPClient) (ex : Exchange) (m : String)
    (p : Option (List (String × Json))) :
    (send_request st ex m p).final.socket = st.socket := by
  match hs : st.socket with
  | .none => simp [send_request, hs]
  | .conn b =>
      rw [send_request_final st ex m p (by rw [hs]; simp)]
      exact hs

/-- Any call that passes the connection check advances the counter by one. -/
theorem send_request_rid (st : Log4MCPClient) (ex : Exchange) (m : String)
    (p : Option (List (String × Json))) (h : st.socket ≠ SocketAttr.none) :
    (send_request st ex m p).final.request_id = st.request_id + 1 := by
  rw [send_request_final st ex m p h]

/-- Any call that passes the connection check builds the envelope with the
decimal string of the incremented counter, the method, and the params
defaulted to the empty mapping. -/
theorem send_request_built (st : Log4MCPClient) (ex : Exchange) (m : String)
    (p : Option (List (String × Json))) (h : st.socket ≠ SocketAttr.none) :
    (send_request st ex m p).built =
      some ⟨toString (st.request_id + 1), m, p.getD []⟩ := by
  match hs : st.socket with
  | .none => exact absurd hs h
  | .conn isOpen =>
      simp only [send_request, hs]
      cases isOpen with
      | false => simp
      | true => cases ex.send <;> simp [recvStep_built]

/-- The receive half records exactly the one send event it was given. -/
theorem sentData_recvStep (st : Log4MCPClient) (env : RequestEnvelope) (d : List Char)
    (a : Nat) (rb : RecvBehavior) :
    sentData (recvStep st env [IOEvent.sent d a] rb) = [d] := by
  cases rb with
  | err => simp [recvStep, sentData]
  | undecodable => simp [recvStep, sentData]
  | data s =>
      simp only [recvStep]
      split
      · simp [sentData]
      · split <;> simp [sentData]

/-- An open-socket call whose send does not raise hands `socket.send` exactly
the encoded envelope, once. -/
theorem sentData_send_request (st : Log4MCPClient) (ex : Exchange) (m : String)
    (p : Option (List (String × Json))) (h : st.socket = SocketAttr.conn true)
    (hs : ex.send ≠ SendBehavior.err) :
    sentData (send_request st ex m p) =
      [encodeRequest ⟨toString (st.request_id + 1), m, p.getD []⟩] := by
  simp only [send_request, h]
  cases hsend : ex.send with
  | err => exact absurd hsend hs
  | accept n => simp [sentData_recvStep, encodeRequest]
  | acceptAll => simp [sentData_recvStep, encodeRequest]

/-- Decomposition of a call whose send accepts `n` bytes. -/
theorem send_request_accept (st : Log4MCPClient) (ex : Exchange) (m : String)
    (p : Option (List (String × Json))) (n : Nat) (h : st.socket = SocketAttr.conn true)
    (hs : ex.send = SendBehavior.accept n) :
    send_request st ex m p =
      recvStep { st with request_id := st.request_id + 1 }
        ⟨toString (st.request_id + 1), m, p.getD []⟩
        [IOEvent.sent (encodeRequest ⟨toString (st.request_id + 1), m, p.getD []⟩)
          (min n (encodeRequest ⟨toString (st.request_id + 1), m, p.getD []⟩).length)]
        ex.recv := by
  simp [send_request, h, hs, encodeRequest]

/-- Decomposition of a call whose send accepts everything. -/
theorem send_request_acceptAll (st : Log4MCPClient) (ex : Exchange) (m : String)
    (p : Option (List (String × Json))) (h : st.socket = SocketAttr.conn true)
    (hs : ex.send = SendBehavior.acceptAll) :
    send_request st ex m p =
      recvStep { st with request_id := st.request_id + 1 }
        ⟨toString (st.request_id + 1), m, p.getD []⟩
        [IOEvent.sent (encodeRequest ⟨toString (st.request_id + 1), m, p.getD []⟩)
          (encodeRequest ⟨toString (st.request_id + 1), m, p.getD []⟩).length]
        ex.recv := by
  simp [send_request, h, hs, encodeRequest]

/-- The receive half of a call that got data records exactly one receive. -/
theorem trace_recvStep_data (st : Log4MCPClient) (env : RequestEnvelope) (d : List Char)
    (a : Nat) (s : List Char) :
    (recvStep st env [IOEvent.sent d a] (RecvBehavior.data s)).trace =
      [IOEvent.sent d a, IOEvent.received s] := by
  simp only [recvStep]
  split
  · simp
  · split <;> simp

/-- Outcome of the receive half on data: closed on empty, protocol error on
unparseable text, the parsed document otherwise. -/
theorem recvStep_outcome_data (st : Log4MCPClient) (env : RequestEnvelope)
    (tr : List IOEvent) (s : List Char) :
    (recvStep st env tr (RecvBehavior.data s)).outcome =
      (if s = [] then Except.error RpcError.connectionClosed
       else
         match pyLoads s with
         | Option.none => Except.error RpcError.protocolError
         | some j => Except.ok j) := by
  simp only [recvStep]
  split
  · rename_i h0
    simp [h0]
  · rename_i h0
    split <;> rename_i h1 <;> simp [h0, h1]

/-- Outcome of a call that got data back: closed on empty, protocol error on
unparseable text, and the parsed document otherwise. -/
theorem send_request_data_outcome (st : Log4MCPClient) (ex : Exchange) (m : String)
    (p : Option (List (String × Json))) (s : List Char) (h : st.socket = SocketAttr.conn true)
    (hsnd : ex.send ≠ SendBehavior.err) (hr : ex.recv = RecvBehavior.data s) :
    (send_request st ex m p).outcome =
      (if s = [] then Except.error RpcError.connectionClosed
       else
         match pyLoads s with
         | Option.none => Except.error RpcError.protocolError
         | some j => Except.ok j) := by
  simp only [send_request, h]
  cases hsend : ex.send with
  | err => exact absurd hsend hsnd
  | accept n => rw [hr]; simp [recvStep_outcome_data]
  | acceptAll => rw [hr]; simp [recvStep_outcome_data]

/-- A call over an open socket whose send does not raise and whose receive
yields data performs exactly one receive, after the send. -/
theorem trace_send_request_data (st : Log4MCPClient) (ex : Exchange) (m : String)
    (p : Option (List (String × Json))) (s : List Char) (h : st.socket = SocketAttr.conn true)
    (hsnd : ex.send ≠ SendBehavior.err) (hr : ex.recv = RecvBehavior.data s) :
    ∃ d a, (send_request st ex m p).trace = [IOEvent.sent d a, IOEvent.received s] := by
  cases hsend : ex.send with
  | err => exact absurd hsend hsnd
  | accept n =>
      refine ⟨encodeRequest ⟨toString (st.request_id + 1), m, p.getD []⟩,
        min n (encodeRequest ⟨toString (st.request_id + 1), m, p.getD []⟩).length, ?_⟩
      rw [send_request_accept st ex m p n h hsend, hr, trace_recvStep_data]
  | acceptAll =>
      refine ⟨encodeRequest ⟨toString (st.request_id + 1), m, p.getD []⟩,
        (encodeRequest ⟨toString (st.request_id + 1), m, p.getD []⟩).length, ?_⟩
      rw [send_request_acceptAll st ex m p h hsend, hr, trace_recvStep_data]


/-- Rendered-length and accepted-byte count of each send event of a call. -/
def sentMeta (r : CallResult) : List (Nat × Nat) :=
  r.trace.filterMap (fun e =>
    match e with
    | .sent d a => some (d.length, a)
    | _ => Option.none)

/-- Ids of the envelopes a call sequence builds, for any start state that
passes the connection check. -/
theorem builtIds_runCalls (cs : List CallSpec) : ∀ st : Log4MCPClient,
    st.socket ≠ SocketAttr.none →
    builtIds (runCalls st cs) =
      (List.range cs.length).map (fun i => toString (st.request_id + i + 1)) := by
  induction cs with
  | nil => intro st h; simp [runCalls, builtIds]
  | cons c cs ih =>
      intro st h
      have hsock := send_request_socket st c.ex c.method c.params
      have hrid := send_request_rid st c.ex c.method c.params h
      have hbuilt := send_request_built st c.ex c.method c.params h
      simp only [runCalls, builtIds, hbuilt]
      rw [ih _ (by rw [hsock]; exact h), hrid]
      simp only [List.length_cons]
      rw [List.range_succ_eq_map, List.map_cons, List.map_map]
      refine List.cons_eq_cons.mpr ⟨by norm_num, ?_⟩
      apply List.map_congr_left
      intro a _
      simp only [Function.comp_apply]
      congr 1
      omega

/-- Sent lines of a call sequence whose sends all go through: each call hands
the transport exactly its built envelope's encoding. -/
theorem sentLines_runCalls (cs : List CallSpec) : ∀ st : Log4MCPClient,
    st.socket = SocketAttr.conn true → (∀ c ∈ cs, c.ex.send = SendBehavior.acceptAll) →
    ∀ r ∈ runCalls st cs, sentData r = (r.built.map encodeRequest).toList := by
  induction cs with
  | nil =>
      intro st _ _ r hr
      simp [runCalls] at hr
  | cons c cs ih =>
      intro st h1 h2 r hr
      simp only [runCalls, List.mem_cons] at hr
      cases hr with
      | inl he =>
          subst he
          rw [sentData_send_request st c.ex c.method c.params h1
              (by rw [h2 c (by simp)]; simp),
            send_request_built st c.ex c.method c.params (by rw [h1]; simp)]
          rfl
      | inr he =>
          exact ih (send_request st c.ex c.method c.params).final
            (by rw [send_request_socket]; exact h1)
            (fun c2 hc2 => h2 c2 (by simp [hc2])) r he

/-- Claim C1: for every sequence of N calls on one freshly constructed client
(directly through `_send_request`, which every facade operation wraps), the
request ids are exactly the decimal strings "1", "2", ..., "N" in order: the
counter starts at 0, is incremented by exactly 1 before each envelope is
built, is never reused and never reset, each envelope id is the decimal
string of the counter, and (when every send goes through) each call hands
the transport exactly its envelope's encoding — so those ids are the ids
sent. -/
theorem request_ids_sequential (host : String) (port : Nat) (verbose : Bool)
    (cs : List CallSpec) (hall : ∀ c ∈ cs, c.ex.send = SendBehavior.acceptAll) :
    builtIds (runCalls (initClient host port verbose) cs) =
      (List.range cs.length).map (fun i => toString (i + 1)) ∧
    ∀ r ∈ runCalls (initClient host port verbose) cs,
      sentData r = (r.built.map encodeRequest).toList := by
  constructor
  · have h := builtIds_runCalls cs (initClient host port verbose) (by simp [initClient])
    simpa [initClient] using h
  · exact sentLines_runCalls cs (initClient host port verbose) rfl hall

/-- Witness for claim C1 at a concrete two-call sequence. -/
theorem request_ids_sequential_witness :
    builtIds (runCalls (initClient "localhost" 3000 false)
      [⟨"log.message", some [("loggerId", Json.str "myapp"), ("level", Json.str "INFO"),
          ("message", Json.str "hello")],
        ⟨SendBehavior.acceptAll, RecvBehavior.data []⟩⟩,
       ⟨"system.capabilities", Option.none,
        ⟨SendBehavior.acceptAll, RecvBehavior.data ('\x7b' :: ['\x7d'])⟩⟩]) =
      (List.range 2).map (fun i => toString (i + 1)) :=
  (request_ids_sequential "localhost" 3000 false _ (by decide)).1

/-- Claim C2 counterexample: after `close()` the socket attribute is still
set, so a call does not fail with `NotConnectedError`: it passes the
connection check, increments the request-id counter, and raises a transport
error from the closed socket. -/
theorem call_after_close_not_notConnected :
    (send_request (close (initClient "localhost" 3000 false) false).1
        ⟨SendBehavior.acceptAll, RecvBehavior.data []⟩ "log.clear" Option.none).outcome =
      Except.error RpcError.transportError ∧
    (send_request (close (initClient "localhost" 3000 false) false).1
        ⟨SendBehavior.acceptAll, RecvBehavior.data []⟩ "log.clear" Option.none).outcome ≠
      Except.error RpcError.notConnected ∧
    (send_request (close (initClient "localhost" 3000 false) false).1
        ⟨SendBehavior.acceptAll, RecvBehavior.data []⟩ "log.clear"
        Option.none).final.request_id =
      (close (initClient "localhost" 3000 false) false).1.request_id + 1 := by
  decide

/-- Claim C2 (amended): a call issued while the socket attribute is unset
(`self.socket is None`) fails with `NotConnectedError`, performs no network
I/O, and leaves the client state — in particular the request-id counter —
unchanged.  After `close()` the attribute remains set, so that state is not
of this kind: such a call instead passes the check, consumes an id, and
fails with a transport error. -/
theorem call_unset_socket_notConnected (st : Log4MCPClient) (ex : Exchange) (m : String)
    (p : Option (List (String × Json))) (h : st.socket = SocketAttr.none) :
    (send_request st ex m p).outcome = Except.error RpcError.notConnected ∧
    (send_request st ex m p).trace = [] ∧
    (send_request st ex m p).final = st := by
  simp [send_request, h]

/-- Witness for the amended claim C2 at a concrete state. -/
theorem call_unset_socket_notConnected_witness :
    (send_request { initClient "localhost" 3000 false with socket := SocketAttr.none }
        ⟨SendBehavior.acceptAll, RecvBehavior.data []⟩ "log.clear" Option.none).outcome =
      Except.error RpcError.notConnected ∧
    (send_request { initClient "localhost" 3000 false with socket := SocketAttr.none }
        ⟨SendBehavior.acceptAll, RecvBehavior.data []⟩ "log.clear" Option.none).trace = [] ∧
    (send_request { initClient "localhost" 3000 false with socket := SocketAttr.none }
        ⟨SendBehavior.acceptAll, RecvBehavior.data []⟩ "log.clear" Option.none).final =
      { initClient "localhost" 3000 false with socket := SocketAttr.none } :=
  call_unset_socket_notConnected _ _ _ _ rfl

/-- Claim C3: a call over an open connection whose send completes performs
exactly one receive, after the send; if that receive yields a zero-length
result the call fails with `ConnectionClosedError` and never returns a
response document. -/
theorem single_receive_and_empty_closes (st : Log4MCPClient) (ex : Exchange) (m : String)
    (p : Option (List (String × Json))) (s : List Char)
    (h : st.socket = SocketAttr.conn true) (hsnd : ex.send ≠ SendBehavior.err)
    (hr : ex.recv = RecvBehavior.data s) :
    (∃ d a, (send_request st ex m p).trace = [IOEvent.sent d a, IOEvent.received s]) ∧
    (s = [] → (send_request st ex m p).outcome = Except.error RpcError.connectionClosed) := by
  refine ⟨trace_send_request_data st ex m p s h hsnd hr, fun hs0 => ?_⟩
  rw [send_request_data_outcome st ex m p s h hsnd hr, if_pos hs0]

/-- Witness for claim C3 at a concrete empty receive. -/
theorem single_receive_and_empty_closes_witness :
    (send_request (initClient "localhost" 3000 false)
        ⟨SendBehavior.acceptAll, RecvBehavior.data []⟩ "log.clear" Option.none).outcome =
      Except.error RpcError.connectionClosed :=
  (single_receive_and_empty_closes (initClient "localhost" 3000 false)
    ⟨SendBehavior.acceptAll, RecvBehavior.data []⟩ "log.clear" Option.none []
    rfl (by decide) rfl).2 rfl

/-- Claim C4 counterexample: the received text `\x7b\x7d` parses as the empty
JSON object, which lacks both the protocolVersion and the id structure, yet
the call returns it as a successful response instead of failing with
`ProtocolError`. -/
theorem missing_structure_returned_ok :
    (send_request (initClient "localhost" 3000 false)
        ⟨SendBehavior.acceptAll, RecvBehavior.data ('\x7b' :: ['\x7d'])⟩ "log.clear"
        Option.none).outcome = Except.ok (PyVal.obj []) ∧
    (send_request (initClient "localhost" 3000 false)
        ⟨SendBehavior.acceptAll, RecvBehavior.data ('\x7b' :: ['\x7d'])⟩ "log.clear"
        Option.none).outcome ≠ Except.error RpcError.protocolError := by
  decide

/-- Claim C4 (amended): the enclosing call fails with `ProtocolError` exactly
when the received bytes do not decode and parse as one JSON document (text
that `json.loads` rejects, or bytes that are not valid UTF-8); no
protocolVersion/id structure check is performed — any parsed document,
whatever its shape, is returned to the caller as the response. -/
theorem decode_parse_failure_protocolError (st : Log4MCPClient) (ex : Exchange) (m : String)
    (p : Option (List (String × Json))) (h : st.socket = SocketAttr.conn true)
    (hsnd : ex.send ≠ SendBehavior.err) :
    (∀ s, ex.recv = RecvBehavior.data s → s ≠ [] → pyLoads s = Option.none →
      (send_request st ex m p).outcome = Except.error RpcError.protocolError) ∧
    (ex.recv = RecvBehavior.undecodable →
      (send_request st ex m p).outcome = Except.error RpcError.protocolError) ∧
    (∀ s j, ex.recv = RecvBehavior.data s → s ≠ [] → pyLoads s = some j →
      (send_request st ex m p).outcome = Except.ok j) := by
  refine ⟨?_, ?_, ?_⟩
  · intro s hr hne hl
    rw [send_request_data_outcome st ex m p s h hsnd hr, if_neg hne, hl]
  · intro hr
    cases hsend : ex.send with
    | err => exact absurd hsend hsnd
    | accept n =>
        rw [send_request_accept st ex m p n h hsend, hr]
        rfl
    | acceptAll =>
        rw [send_request_acceptAll st ex m p h hsend, hr]
        rfl
  · intro s j hr hne hl
    rw [send_request_data_outcome st ex m p s h hsnd hr, if_neg hne, hl]

/-- Witness for the amended claim C4 at the text `not`. -/
theorem decode_parse_failure_protocolError_witness :
    (send_request (initClient "localhost" 3000 false)
        ⟨SendBehavior.acceptAll, RecvBehavior.data ['n', 'o', 't']⟩ "log.clear"
        Option.none).outcome = Except.error RpcError.protocolError :=
  (decode_parse_failure_protocolError (initClient "localhost" 3000 false)
    ⟨SendBehavior.acceptAll, RecvBehavior.data ['n', 'o', 't']⟩ "log.clear" Option.none
    rfl (by decide)).1 ['n', 'o', 't'] rfl (by decide) (by decide)

/-- Claim C5: a call over an open connection whose send does not raise hands
the transport exactly the JSON serialization of the object with keys
`jsonrpc` (the constant "2.0"), `id` (the decimal string of the allocated
id), `method`, and `params` (the empty mapping when none were supplied),
followed by a single line-feed terminator and nothing else. -/
theorem sent_bytes_exact_envelope (st : Log4MCPClient) (ex : Exchange) (m : String)
    (p : Option (List (String × Json))) (h : st.socket = SocketAttr.conn true)
    (hs : ex.send ≠ SendBehavior.err) :
    sentData (send_request st ex m p) =
      [dumpsChars (Json.obj [("jsonrpc", Json.str "2.0"),
         ("id", Json.str (toString (st.request_id + 1))),
         ("method", Json.str m), ("params", Json.obj (p.getD []))]) ++ ['\x0a']] :=
  sentData_send_request st ex m p h hs

/-- Witness for claim C5 at a concrete call. -/
theorem sent_bytes_exact_envelope_witness :
    sentData (send_request (initClient "localhost" 3000 false)
        ⟨SendBehavior.acceptAll, RecvBehavior.data []⟩ "log.clear"
        (some [("loggerId", Json.str "myapp")])) =
      [dumpsChars (Json.obj [("jsonrpc", Json.str "2.0"),
         ("id", Json.str (toString (0 + 1))),
         ("method", Json.str "log.clear"),
         ("params", Json.obj ((some [("loggerId", Json.str "myapp")]).getD []))]) ++ ['\x0a']] :=
  sent_bytes_exact_envelope (initClient "localhost" 3000 false)
    ⟨SendBehavior.acceptAll, RecvBehavior.data []⟩ "log.clear"
    (some [("loggerId", Json.str "myapp")]) rfl (by decide)

/-- Claim C6, evaluated at the failing input: the OS accepts only 1 byte of
the 62-byte encoded request, yet — because the code ignores the return value
of `socket.send` — no error is raised and the call completes, even though
only a proper prefix of the message was written. -/
theorem partial_send_unreported :
    sentMeta (send_request (initClient "localhost" 3000 false)
        ⟨SendBehavior.accept 1, RecvBehavior.data ('\x7b' :: ['\x7d'])⟩ "ping"
        Option.none) = [(62, 1)] ∧
    (send_request (initClient "localhost" 3000 false)
        ⟨SendBehavior.accept 1, RecvBehavior.data ('\x7b' :: ['\x7d'])⟩ "ping"
        Option.none).outcome = Except.ok (PyVal.obj []) := by
  decide

/-- Claim C7: `close()` is idempotent and non-throwing: for every client
state and every behaviour of the underlying release, closing twice leaves
the same state as closing once, and an error during the release is reported
in the result instead of propagating (the returned pair is always
produced). -/
theorem close_idempotent_nonthrowing (st : Log4MCPClient) (f1 f2 : Bool) :
    (close (close st f1).1 f2).1 = (close st f1).1 ∧
    (∀ e, closeRaw st f1 = Except.error e → close st f1 = ((close st f1).1, some e)) := by
  constructor
  · match hs : st.socket with
    | .none => cases f1 <;> cases f2 <;> simp [close, closeRaw, hs]
    | .conn b => cases f1 <;> cases f2 <;> simp [close, closeRaw, hs]
  · intro e he
    simp [close, he]

/-- Witness for claim C7: a double close on a connected client whose first
release fails. -/
theorem close_idempotent_nonthrowing_witness :
    (close (close (initClient "localhost" 3000 false) true).1 false).1 =
      (close (initClient "localhost" 3000 false) true).1 ∧
    close (initClient "localhost" 3000 false) true =
      ((close (initClient "localhost" 3000 false) true).1, some RpcError.transportError) :=
  ⟨(close_idempotent_nonthrowing (initClient "localhost" 3000 false) true false).1,
   (close_idempotent_nonthrowing (initClient "localhost" 3000 false) true false).2
     RpcError.transportError rfl⟩

/-- Claim C8: `get_entries` with no level filter sends method
`log.getEntries` with params holding exactly the keys `loggerId` and
`level`, the `level` key present and bound to JSON null; with a filter, the
same key carries that level. -/
theorem get_entries_level_key_present (st : Log4MCPClient) (ex : Exchange)
    (logger_id : String) (h : st.socket ≠ SocketAttr.none) :
    (get_entries st ex logger_id Option.none).built =
      some ⟨toString (st.request_id + 1), "log.getEntries",
        [("loggerId", Json.str logger_id), ("level", Json.null)]⟩ ∧
    ∀ lvl : String, (get_entries st ex logger_id (some lvl)).built =
      some ⟨toString (st.request_id + 1), "log.getEntries",
        [("loggerId", Json.str logger_id), ("level", Json.str lvl)]⟩ := by
  constructor
  · rw [get_entries, send_request_built st ex _ _ h]
    rfl
  · intro lvl
    rw [get_entries, send_request_built st ex _ _ h]
    rfl

/-- Witness for claim C8 at a concrete logger id. -/
theorem get_entries_level_key_present_witness :
    (get_entries (initClient "localhost" 3000 false)
        ⟨SendBehavior.acceptAll, RecvBehavior.data []⟩ "myapp" Option.none).built =
      some ⟨"1", "log.getEntries", [("loggerId", Json.str "myapp"), ("level", Json.null)]⟩ :=
  (get_entries_level_key_present (initClient "localhost" 3000 false)
    ⟨SendBehavior.acceptAll, RecvBehavior.data []⟩ "myapp" (by decide)).1

/-- Claim C9: encoding any request envelope and feeding the bytes through a
stub echo responder — which parses the line and wraps the same id in a
result — then decoding the responder's bytes yields a response document
whose id equals the original request's id. -/
theorem echo_round_trip (req : RequestEnvelope) :
    ∃ respLine, echoResponder (encodeRequest req) = some respLine ∧
      ∃ resp, loads respLine = some resp ∧
        jsonField resp "id" = some (Json.str req.id) := by
  have h1 : loads (encodeRequest req) = some (requestJson req) :=
    loads_dumpsChars (requestJson req)
  have h2 : jsonField (requestJson req) "id" = some (Json.str req.id) := rfl
  refine ⟨dumpsChars (Json.obj [("jsonrpc", Json.str "2.0"), ("id", Json.str req.id),
    ("result", Json.obj [])]) ++ ['\x0a'], ?_, ?_⟩
  · simp [echoResponder, h1, h2]
  · exact ⟨_, loads_dumpsChars _, rfl⟩

/-- Claim C10: a call that passes the connection check and then fails has
already consumed its id: the counter is left incremented (never rolled
back), and the next call — whatever its outcome — builds its envelope with
the strictly greater id. -/
theorem failed_calls_consume_ids (st : Log4MCPClient) (ex : Exchange) (m : String)
    (p : Option (List (String × Json))) (e : RpcError)
    (h : st.socket ≠ SocketAttr.none)
    (he : (send_request st ex m p).outcome = Except.error e) :
    (send_request st ex m p).final.request_id = st.request_id + 1 ∧
    (send_request st ex m p).built = some ⟨toString (st.request_id + 1), m, p.getD []⟩ ∧
    ∀ ex2 m2 p2, (send_request (send_request st ex m p).final ex2 m2 p2).built =
      some ⟨toString (st.request_id + 2), m2, p2.getD []⟩ := by
  refine ⟨send_request_rid st ex m p h, send_request_built st ex m p h, ?_⟩
  intro ex2 m2 p2
  have hsock : (send_request st ex m p).final.socket ≠ SocketAttr.none := by
    rw [send_request_socket]
    exact h
  rw [send_request_built _ ex2 m2 p2 hsock, send_request_rid st ex m p h]

/-- Witness for claim C10 at a concrete failed call (peer closed). -/
theorem failed_calls_consume_ids_witness :
    (send_request (initClient "localhost" 3000 false)
        ⟨SendBehavior.acceptAll, RecvBehavior.data []⟩ "log.clear"
        Option.none).final.request_id = 0 + 1 :=
  (failed_calls_consume_ids (initClient "localhost" 3000 false)
    ⟨SendBehavior.acceptAll, RecvBehavior.data []⟩ "log.clear" Option.none
    RpcError.connectionClosed (by decide) (by decide)).1

end Log4MCP
